import Mathlib

/-!
Verification of the provider abstraction and streaming protocol-normalization
layer of the openSesh desktop assistant (src-tauri/src/providers).

The development shallowly embeds the Rust source:
- `providers/types.rs` becomes the unified chat model (`Role`, `ContentBlock`,
  `ChatMessage`, `ChatResponse`, `ChatChunk`, ...).
- `providers/openai.rs` and `providers/anthropic.rs` become the two vendor
  transcoders (`convert_messages`, `convert_response`) and the per-transport-chunk
  streaming decoders.
- `serde_json::Value` is embedded as the inductive `Json` (numbers restricted to
  integers; floating-point numbers are outside the embedding).
  `serde_json::to_string` / `serde_json::from_str::<Value>` are embedded as the
  executable `jsonRender` / `jsonParse` below, mirroring serde_json's compact
  rendering (including its string-escape table) and a whitespace-tolerant parser.
-/

namespace OpenSesh

/-! ## JSON values (embedding of serde_json::Value, numbers as integers) -/

inductive Json where
  | null : Json
  | bool (b : Bool) : Json
  | num (n : Int) : Json
  | str (s : String) : Json
  | arr (elems : List Json) : Json
  | obj (members : List (String × Json)) : Json

/-- The character `\x7b` (left curly brace), kept out of literals. -/
def lcurly : Char := Char.ofNat 123

/-- The character `\x7d` (right curly brace), kept out of literals. -/
def rcurly : Char := Char.ofNat 125

/-- Decimal digit character for `n < 10`. -/
def digitChar (n : Nat) : Char :=
  match n with
  | 0 => '0' | 1 => '1' | 2 => '2' | 3 => '3' | 4 => '4'
  | 5 => '5' | 6 => '6' | 7 => '7' | 8 => '8' | _ => '9'

/-- Lower-case hexadecimal digit character for `n < 16`
(serde_json's HEX_DIGITS table). -/
def hexChar (n : Nat) : Char :=
  match n with
  | 0 => '0' | 1 => '1' | 2 => '2' | 3 => '3' | 4 => '4'
  | 5 => '5' | 6 => '6' | 7 => '7' | 8 => '8' | 9 => '9'
  | 10 => 'a' | 11 => 'b' | 12 => 'c' | 13 => 'd' | 14 => 'e' | _ => 'f'

/-- Decimal digits of a natural number, most significant first. -/
def natChars (n : Nat) : List Char :=
  if _h : n < 10 then [digitChar n]
  else natChars (n / 10) ++ [digitChar (n % 10)]
  termination_by n
  decreasing_by exact Nat.div_lt_self (by omega) (by omega)

/-- serde_json's escaping of one character inside a string literal:
`"` and `\` get a backslash, the short control escapes `\b \t \n \f \r`
are used where they exist, other control characters become `\u00XX`,
and everything else is emitted verbatim. -/
def escapeChar (c : Char) : List Char :=
  if c = '"' then ['\\', '"']
  else if c = '\\' then ['\\', '\\']
  else if c.toNat = 8 then ['\\', 'b']
  else if c.toNat = 9 then ['\\', 't']
  else if c.toNat = 10 then ['\\', 'n']
  else if c.toNat = 12 then ['\\', 'f']
  else if c.toNat = 13 then ['\\', 'r']
  else if c.toNat < 32 then
    ['\\', 'u', '0', '0', hexChar (c.toNat / 16), hexChar (c.toNat % 16)]
  else [c]

/-- Rendering of a JSON string literal (quotes plus escaped body). -/
def renderStringChars (cs : List Char) : List Char :=
  '"' :: (cs.map escapeChar).flatten ++ ['"']

/-- Rendering of an integer, as serde_json renders `i64`. -/
def renderInt (n : Int) : List Char :=
  if n < 0 then '-' :: natChars n.natAbs else natChars n.toNat

mutual

/-- Compact rendering of a JSON value, as `serde_json::to_string`. -/
def renderJson : Json → List Char
  | .null => 'n' :: ['u', 'l', 'l']
  | .bool b => if b then 't' :: ['r', 'u', 'e'] else 'f' :: ['a', 'l', 's', 'e']
  | .num n => renderInt n
  | .str s => renderStringChars s.data
  | .arr xs => '[' :: renderArrItems xs ++ [']']
  | .obj kvs => lcurly :: renderObjItems kvs ++ [rcurly]

/-- Comma-separated rendering of array elements. -/
def renderArrItems : List Json → List Char
  | [] => []
  | [x] => renderJson x
  | x :: y :: xs => renderJson x ++ ',' :: renderArrItems (y :: xs)

/-- Comma-separated rendering of object members (`"key":value`). -/
def renderObjItems : List (String × Json) → List Char
  | [] => []
  | [(k, v)] => renderStringChars k.data ++ ':' :: renderJson v
  | (k, v) :: m :: kvs =>
      renderStringChars k.data ++ ':' :: renderJson v ++ ',' :: renderObjItems (m :: kvs)

end

def jsonRender (v : Json) : String := String.mk (renderJson v)

/-- JSON insignificant whitespace. -/
def isWsChar (c : Char) : Bool :=
  c = ' ' || c = '\t' || c = '\n' || c = '\r'

def skipWs : List Char → List Char
  | [] => []
  | c :: r => if isWsChar c then skipWs r else c :: r

def digitVal (c : Char) : Nat := c.toNat - 48

/-- Accumulating parse of a run of decimal digits. -/
def parseNatAux (acc : Nat) : List Char → Nat × List Char
  | [] => (acc, [])
  | c :: r => if c.isDigit then parseNatAux (acc * 10 + digitVal c) r else (acc, c :: r)

/-- Parse a nonempty run of decimal digits. -/
def parseNatStart : List Char → Option (Nat × List Char)
  | [] => none
  | c :: r => if c.isDigit then some (parseNatAux (digitVal c) r) else none

/-- Parse an optionally-signed integer literal. -/
def parseIntChars : List Char → Option (Int × List Char)
  | '-' :: r => (parseNatStart r).map (fun p => (-(p.1 : Int), p.2))
  | s => (parseNatStart s).map (fun p => ((p.1 : Int), p.2))

def hexVal (c : Char) : Option Nat :=
  if c.isDigit then some (c.toNat - 48)
  else if 97 ≤ c.toNat ∧ c.toNat ≤ 102 then some (c.toNat - 87)
  else if 65 ≤ c.toNat ∧ c.toNat ≤ 70 then some (c.toNat - 55)
  else none

/-- Parse the body of a JSON string literal (after the opening quote),
returning the decoded characters and the input after the closing quote. -/
def parseStringBody (s : List Char) : Option (List Char × List Char) :=
  match s with
  | [] => none
  | c :: r =>
    if c = '"' then some ([], r)
    else if c = '\\' then
      match r with
      | [] => none
      | e :: r2 =>
        if e = '"' then (parseStringBody r2).map (fun p => ('"' :: p.1, p.2))
        else if e = '\\' then (parseStringBody r2).map (fun p => ('\\' :: p.1, p.2))
        else if e = '/' then (parseStringBody r2).map (fun p => ('/' :: p.1, p.2))
        else if e = 'b' then (parseStringBody r2).map (fun p => (Char.ofNat 8 :: p.1, p.2))
        else if e = 'f' then (parseStringBody r2).map (fun p => (Char.ofNat 12 :: p.1, p.2))
        else if e = 'n' then (parseStringBody r2).map (fun p => (Char.ofNat 10 :: p.1, p.2))
        else if e = 'r' then (parseStringBody r2).map (fun p => (Char.ofNat 13 :: p.1, p.2))
        else if e = 't' then (parseStringBody r2).map (fun p => (Char.ofNat 9 :: p.1, p.2))
        else if e = 'u' then
          match r2 with
          | h1 :: h2 :: h3 :: h4 :: r3 =>
            match hexVal h1, hexVal h2, hexVal h3, hexVal h4 with
            | some a, some b, some c3, some d =>
              let code := ((a * 16 + b) * 16 + c3) * 16 + d
              if code.isValidChar then
                (parseStringBody r3).map (fun p => (Char.ofNat code :: p.1, p.2))
              else none
            | _, _, _, _ => none
          | _ => none
        else none
    else if c.toNat < 32 then none
    else (parseStringBody r).map (fun p => (c :: p.1, p.2))
  termination_by s.length
  decreasing_by all_goals simp_wf <;> omega

mutual

/-- Fuel-indexed parse of one JSON value (leading whitespace allowed),
mirroring `serde_json::from_str::<Value>`. -/
def parseValueF : Nat → List Char → Option (Json × List Char)
  | 0, _ => none
  | Nat.succ fuel, s =>
    match skipWs s with
    | [] => none
    | c :: r =>
      if c = 'n' then
        (match r with
         | 'u' :: 'l' :: 'l' :: r2 => some (.null, r2)
         | _ => none)
      else if c = 't' then
        (match r with
         | 'r' :: 'u' :: 'e' :: r2 => some (.bool true, r2)
         | _ => none)
      else if c = 'f' then
        (match r with
         | 'a' :: 'l' :: 's' :: 'e' :: r2 => some (.bool false, r2)
         | _ => none)
      else if c = '"' then
        (parseStringBody r).map (fun p => (.str (String.mk p.1), p.2))
      else if c = '[' then
        (match skipWs r with
         | [] => none
         | d :: r2 =>
           if d = ']' then some (.arr [], r2)
           else (parseArrItemsF fuel r).map (fun p => (.arr p.1, p.2)))
      else if c = lcurly then
        (match skipWs r with
         | [] => none
         | d :: r2 =>
           if d = rcurly then some (.obj [], r2)
           else (parseObjItemsF fuel r).map (fun p => (.obj p.1, p.2)))
      else if c = '-' || c.isDigit then
        (parseIntChars (c :: r)).map (fun p => (.num p.1, p.2))
      else none

/-- Fuel-indexed parse of the elements of a nonempty array, including the
closing bracket. -/
def parseArrItemsF : Nat → List Char → Option (List Json × List Char)
  | 0, _ => none
  | Nat.succ fuel, s =>
    (parseValueF fuel s).bind (fun pv =>
      match skipWs pv.2 with
      | [] => none
      | d :: r2 =>
        if d = ',' then (parseArrItemsF fuel r2).map (fun p => (pv.1 :: p.1, p.2))
        else if d = ']' then some ([pv.1], r2)
        else none)

/-- Fuel-indexed parse of the members of a nonempty object, including the
closing brace. -/
def parseObjItemsF : Nat → List Char → Option (List (String × Json) × List Char)
  | 0, _ => none
  | Nat.succ fuel, s =>
    match skipWs s with
    | [] => none
    | c :: r =>
      if c = '"' then
        (parseStringBody r).bind (fun pk =>
          match skipWs pk.2 with
          | [] => none
          | d :: r2 =>
            if d = ':' then
              (parseValueF fuel r2).bind (fun pv =>
                match skipWs pv.2 with
                | [] => none
                | d2 :: r4 =>
                  if d2 = ',' then
                    (parseObjItemsF fuel r4).map
                      (fun p => ((String.mk pk.1, pv.1) :: p.1, p.2))
                  else if d2 = rcurly then some ([(String.mk pk.1, pv.1)], r4)
                  else none)
            else none)
      else none

end

/-- Embedding of `serde_json::from_str::<Value>`: parse one value and require
only whitespace afterwards.  The fuel `2 * s.length + 1` is enough for every
rendered value (proved below). -/
def jsonParse (s : String) : Option Json :=
  match parseValueF (2 * s.length + 1) s.data with
  | some (v, r) => if (skipWs r).isEmpty then some v else none
  | none => none

/-! ## Unified chat model (providers/types.rs) -/

/-- `Role` from types.rs. -/
inductive Role where
  | system | user | assistant | tool
  deriving DecidableEq

/-- `ImageSource` from types.rs. -/
inductive ImageSource where
  | base64 (media_type data : String)
  | url (url : String)

/-- `ContentBlock` from types.rs (`ToolUse.input` is a JSON value). -/
inductive ContentBlock where
  | text (text : String)
  | image (source : ImageSource)
  | toolUse (id name : String) (input : Json)
  | toolResult (tool_use_id : String) (content : String) (is_error : Option Bool)

/-- `MessageContent` from types.rs: either one plain string or content blocks. -/
inductive MessageContent where
  | text (content : String)
  | blocks (content : List ContentBlock)

/-- `ChatMessage` from types.rs. -/
structure ChatMessage where
  role : Role
  content : MessageContent

/-- `StopReason` from types.rs. -/
inductive StopReason where
  | endTurn | maxTokens | stopSequence | toolUse
  deriving DecidableEq

/-- `Usage` from types.rs; `Usage::default()` is zero in both counters. -/
structure Usage where
  input_tokens : Nat
  output_tokens : Nat
  deriving DecidableEq

/-- `ChatResponse` from types.rs. -/
structure ChatResponse where
  id : String
  content : List ContentBlock
  stop_reason : Option StopReason
  usage : Usage
  model : String

/-- `ContentDelta` from types.rs. -/
inductive ContentDelta where
  | textDelta (text : String)
  | inputJsonDelta (partial_json : String)

/-- `ChatChunk` from types.rs: the unified streaming events. -/
inductive ChatChunk where
  | messageStart (id model : String)
  | contentBlockStart (index : Nat) (content_block : ContentBlock)
  | contentBlockDelta (index : Nat) (delta : ContentDelta)
  | contentBlockStop (index : Nat)
  | messageDelta (stop_reason : Option StopReason) (usage : Option Usage)
  | messageStop
  | error (message : String)
  | ping

/-- The variants of `ProviderError` (providers/mod.rs) reachable from the
HTTP-status error paths modelled here. -/
inductive ProviderError where
  | apiError (status : Nat) (message : String)
  | rateLimited (retry_after : Option Nat)
  | streamError (message : String)

/-! ## OpenAI wire types (providers/openai.rs) -/

/-- `OpenAIImageUrl`. -/
structure OpenAIImageUrl where
  url : String
  detail : Option String

/-- `OpenAIContentPart`. -/
inductive OpenAIContentPart where
  | text (text : String)
  | imageUrl (image_url : OpenAIImageUrl)

/-- `OpenAIContent`: a plain string or multi-modal parts. -/
inductive OpenAIContent where
  | text (s : String)
  | parts (ps : List OpenAIContentPart)

/-- `OpenAIFunctionCall`: tool name plus string-encoded JSON arguments. -/
structure OpenAIFunctionCall where
  name : String
  arguments : String

/-- `OpenAIToolCall`. -/
structure OpenAIToolCall where
  id : String
  call_type : String
  function : OpenAIFunctionCall

/-- `OpenAIMessage`. -/
structure OpenAIMessage where
  role : String
  content : Option OpenAIContent
  tool_calls : Option (List OpenAIToolCall)
  tool_call_id : Option String
  name : Option String

/-- `OpenAIUsage`. -/
structure OpenAIUsage where
  prompt_tokens : Nat
  completion_tokens : Nat
  total_tokens : Nat

/-- `OpenAIResponseMessage`. -/
structure OpenAIResponseMessage where
  role : String
  content : Option String
  tool_calls : Option (List OpenAIToolCall)

/-- `OpenAIChoice`. -/
structure OpenAIChoice where
  message : OpenAIResponseMessage
  finish_reason : Option String
  index : Nat

/-- `OpenAIResponse`. -/
structure OpenAIResponse where
  id : String
  choices : List OpenAIChoice
  usage : Option OpenAIUsage
  model : String

/-- The `OpenAIProvider` configuration fields read by the functions
modelled here (`convert_messages` reads `system_prompt`, the stream
decoder reads `model`). -/
structure OpenAIProviderState where
  model : String
  system_prompt : Option String

/-- The extraction of a system prompt text from a System-role message
(openai.rs, `Role::System` branch of `convert_messages`): a plain string is
taken as-is, blocks are filtered to their Text blocks and joined with `""`. -/
def systemTextOf (mc : MessageContent) : String :=
  match mc with
  | .text content => content
  | .blocks content =>
      String.join (content.filterMap (fun b =>
        match b with
        | .text t => some t
        | _ => none))

/-- The tool-result view used by openai.rs `convert_messages`
(`tool_use_id`, `content`, `is_error`). -/
def toolResultView (b : ContentBlock) : Option (String × String × Option Bool) :=
  match b with
  | .toolResult tool_use_id content is_error => some (tool_use_id, content, is_error)
  | _ => none

/-- openai.rs: a `role: "tool"` message carrying one tool result. -/
def openaiToolResultMsg (tr : String × String × Option Bool) : OpenAIMessage :=
  { role := "tool", content := some (.text tr.2.1), tool_calls := none,
    tool_call_id := some tr.1, name := none }

/-- openai.rs `convert_messages`, conversion of a non-tool-result content
block of a User message to an OpenAI content part (tool blocks dropped). -/
def openaiUserPart (b : ContentBlock) : Option OpenAIContentPart :=
  match b with
  | .text text => some (.text text)
  | .image (.base64 media_type data) =>
      some (.imageUrl { url := "data:" ++ media_type ++ ";base64," ++ data, detail := none })
  | .image (.url url) => some (.imageUrl { url := url, detail := none })
  | _ => none

/-- openai.rs `convert_messages`, Assistant branch: a `ToolUse` block encodes
its JSON argument object into the string-valued `arguments` field via
`serde_json::to_string` (embedded as `jsonRender`). -/
def openaiEncodeToolUse (id name : String) (input : Json) : OpenAIToolCall :=
  { id := id, call_type := "function",
    function := { name := name, arguments := jsonRender input } }

/-- openai.rs `convert_messages`: the OpenAI messages emitted for one unified
message (the per-iteration body of the `for msg in messages` loop). -/
def openaiConvertMessage (sp : Option String) (msg : ChatMessage) : List OpenAIMessage :=
  match msg.role with
  | .system =>
      if sp.isNone then
        [{ role := "system", content := some (.text (systemTextOf msg.content)),
           tool_calls := none, tool_call_id := none, name := none }]
      else []
  | .user =>
      match msg.content with
      | .text content =>
          [{ role := "user", content := some (.text content),
             tool_calls := none, tool_call_id := none, name := none }]
      | .blocks content =>
          let tool_results := content.filterMap toolResultView
          if tool_results.isEmpty then
            let parts := content.filterMap openaiUserPart
            let oc : OpenAIContent :=
              if h : parts.length = 1 then
                match parts[0] with
                | .text text => .text text
                | _ => .parts parts
              else .parts parts
            [{ role := "user", content := some oc,
               tool_calls := none, tool_call_id := none, name := none }]
          else
            tool_results.map openaiToolResultMsg
  | .assistant =>
      match msg.content with
      | .text content =>
          [{ role := "assistant", content := some (.text content),
             tool_calls := none, tool_call_id := none, name := none }]
      | .blocks content =>
          let text := String.join (content.filterMap (fun b =>
            match b with
            | .text t => some t
            | _ => none))
          let tool_calls := content.filterMap (fun b =>
            match b with
            | .toolUse id name input => some (openaiEncodeToolUse id name input)
            | _ => none)
          [{ role := "assistant",
             content := if text.isEmpty then none else some (.text text),
             tool_calls := if tool_calls.isEmpty then none else some tool_calls,
             tool_call_id := none, name := none }]
  | .tool => []

/-- openai.rs `convert_messages`: optional leading system message from the
configured system prompt, then the per-message conversions in order. -/
def openaiConvertMessages (p : OpenAIProviderState) (messages : List ChatMessage) :
    List OpenAIMessage :=
  (match p.system_prompt with
   | some system =>
       [{ role := "system", content := some (.text system),
          tool_calls := none, tool_call_id := none, name := none }]
   | none => []) ++
  (messages.map (openaiConvertMessage p.system_prompt)).flatten

/-- openai.rs `convert_response`: decoding of one tool call; the arguments
string is parsed by `serde_json::from_str` (embedded as `jsonParse`) and
`unwrap_or_default()` turns a parse failure into JSON `null`. -/
def openaiDecodeToolCall (tc : OpenAIToolCall) : ContentBlock :=
  .toolUse tc.id tc.function.name ((jsonParse tc.function.arguments).getD .null)

/-- openai.rs `convert_response`: `finish_reason` vocabulary mapping
(unrecognized reasons default to `EndTurn`). -/
def openaiMapFinishReason (r : String) : StopReason :=
  if r = "stop" then .endTurn
  else if r = "length" then .maxTokens
  else if r = "tool_calls" then .toolUse
  else .endTurn

/-- openai.rs `convert_response`. -/
def openaiConvertResponse (response : OpenAIResponse) : ChatResponse :=
  let choice := response.choices.head?
  let message := choice.map (·.message)
  let finish_reason := choice.bind (·.finish_reason)
  let textBlocks : List ContentBlock :=
    match message with
    | some msg =>
        match msg.content with
        | some text => if text.isEmpty then [] else [.text text]
        | none => []
    | none => []
  let toolBlocks : List ContentBlock :=
    match message with
    | some msg =>
        match msg.tool_calls with
        | some tool_calls => tool_calls.map openaiDecodeToolCall
        | none => []
    | none => []
  { id := response.id
    content := textBlocks ++ toolBlocks
    stop_reason := finish_reason.map openaiMapFinishReason
    usage := (response.usage.map (fun u =>
        { input_tokens := u.prompt_tokens, output_tokens := u.completion_tokens })).getD
      { input_tokens := 0, output_tokens := 0 }
    model := response.model }

/-- The shared HTTP error path of openai.rs `chat` and `chat_stream`
(identical code in both): on a non-2xx status the body text is read, and
`serde_json::from_str::<OpenAIError>` is attempted on it.  `parsedMessage`
is `some m` when the body parses as the vendor error structure with message
`m`, and `none` when it does not parse. -/
def openaiHttpError (status : Nat) (body : String) (parsedMessage : Option String) :
    ProviderError :=
  match parsedMessage with
  | some m => if status = 429 then .rateLimited none else .apiError status m
  | none => .apiError status body

/-! ## OpenAI streaming (providers/openai.rs, `chat_stream`) -/

/-- `OpenAIStreamFunction`. -/
structure OpenAIStreamFunction where
  name : Option String
  arguments : Option String

/-- `OpenAIStreamToolCall`. -/
structure OpenAIStreamToolCall where
  index : Nat
  id : Option String
  call_type : Option String
  function : Option OpenAIStreamFunction

/-- `OpenAIStreamDelta`. -/
structure OpenAIStreamDelta where
  role : Option String
  content : Option String
  tool_calls : Option (List OpenAIStreamToolCall)

/-- `OpenAIStreamChoice`. -/
structure OpenAIStreamChoice where
  index : Nat
  delta : OpenAIStreamDelta
  finish_reason : Option String

/-- `OpenAIStreamChunk`: one SSE frame of the OpenAI stream. -/
structure OpenAIStreamChunk where
  id : String
  choices : List OpenAIStreamChoice
  model : String
  usage : Option OpenAIUsage

/-- One line of a transport chunk of the OpenAI SSE stream, as the decoder
classifies it: a line without the `data: ` marker is skipped, a data line is
either the literal `[DONE]` sentinel, a payload that
`serde_json::from_str::<OpenAIStreamChunk>` accepts (with the parsed frame),
or a malformed payload that is skipped. -/
inductive OpenAISseLine where
  | notData
  | done
  | frame (c : OpenAIStreamChunk)
  | malformed

/-- openai.rs `chat_stream`: the events pushed for one `choices[]` entry of a
parsed frame (text delta at the implicit index 0, tool-call start/argument
deltas at the vendor index offset by one, and a `MessageDelta` when a finish
reason is present; its stop-reason table maps unrecognized reasons to `None`
here, unlike `convert_response`).  `openaiToolCallEvents` is the loop body for
one `tool_calls[]` entry: a `ContentBlockStart` when the entry carries an id
(the vendor index offset by one past the implicit text block), then an
`InputJsonDelta` when it carries a nonempty argument fragment. -/
def openaiToolCallEvents (tc : OpenAIStreamToolCall) : List ChatChunk :=
  (match tc.id with
   | some id =>
       [ChatChunk.contentBlockStart (tc.index + 1)
         (.toolUse id ((tc.function.bind (·.name)).getD "") (.obj []))]
   | none => []) ++
  (match tc.function with
   | some func =>
       (match func.arguments with
        | some args =>
            if args.isEmpty then []
            else [ChatChunk.contentBlockDelta (tc.index + 1) (.inputJsonDelta args)]
        | none => [])
   | none => [])

/-- openai.rs `chat_stream`: the events pushed for one `choices[]` entry of a
parsed frame. -/
def openaiChoiceEvents (chunkUsage : Option OpenAIUsage) (choice : OpenAIStreamChoice) :
    List ChatChunk :=
  (match choice.delta.content with
   | some content =>
       if content.isEmpty then []
       else [.contentBlockDelta 0 (.textDelta content)]
   | none => []) ++
  (match choice.delta.tool_calls with
   | some tool_calls => (tool_calls.map openaiToolCallEvents).flatten
   | none => []) ++
  (match choice.finish_reason with
   | some finish_reason =>
       [ChatChunk.messageDelta
         (if finish_reason = "stop" then some .endTurn
          else if finish_reason = "length" then some .maxTokens
          else if finish_reason = "tool_calls" then some .toolUse
          else none)
         (chunkUsage.map (fun u =>
           { input_tokens := u.prompt_tokens, output_tokens := u.completion_tokens }))]
   | none => [])

/-- openai.rs `chat_stream`: processing of one SSE line, accumulating into the
per-transport-chunk `chunks` vector.  A `[DONE]` sentinel pushes `MessageStop`;
a parsed frame first synthesizes `MessageStart` when the vector is still empty
(`chunks.is_empty()`), then pushes the per-choice events. -/
def openaiProcessLine (model : String) (acc : List ChatChunk) (line : OpenAISseLine) :
    List ChatChunk :=
  match line with
  | .notData => acc
  | .malformed => acc
  | .done => acc ++ [.messageStop]
  | .frame c =>
      (if acc.isEmpty then acc ++ [.messageStart c.id model] else acc) ++
        (c.choices.map (openaiChoiceEvents c.usage)).flatten

/-- openai.rs `chat_stream`: the events produced for one transport chunk
(the closure mapped over `bytes_stream()`), starting from an empty vector. -/
def openaiDecodeChunk (model : String) (lines : List OpenAISseLine) : List ChatChunk :=
  lines.foldl (openaiProcessLine model) []

/-- openai.rs `chat_stream`: the whole event sequence of a stream whose
transport delivers the given chunks (the per-chunk event lists flattened,
as the `filter_map`/`flatten` combination does). -/
def openaiDecodeStream (model : String) (chunks : List (List OpenAISseLine)) :
    List ChatChunk :=
  (chunks.map (openaiDecodeChunk model)).flatten

/-! ## Anthropic wire types (providers/anthropic.rs) -/

/-- `AnthropicImageSource`. -/
structure AnthropicImageSource where
  source_type : String
  media_type : String
  data : String

/-- `AnthropicContentBlock`. -/
inductive AnthropicContentBlock where
  | text (text : String)
  | image (source : AnthropicImageSource)
  | toolUse (id name : String) (input : Json)
  | toolResult (tool_use_id : String) (content : String) (is_error : Option Bool)

/-- `AnthropicContent`: a plain string or blocks. -/
inductive AnthropicContent where
  | text (s : String)
  | blocks (bs : List AnthropicContentBlock)

/-- `AnthropicMessage`. -/
structure AnthropicMessage where
  role : String
  content : AnthropicContent

/-- `AnthropicUsage`. -/
structure AnthropicUsage where
  input_tokens : Nat
  output_tokens : Nat

/-- `AnthropicResponse`. -/
structure AnthropicResponse where
  id : String
  content : List AnthropicContentBlock
  stop_reason : Option String
  usage : AnthropicUsage
  model : String

/-- `AnthropicErrorDetail`. -/
structure AnthropicErrorDetail where
  error_type : String
  message : String

/-- anthropic.rs `convert_messages`: conversion of one unified content block
(URL image sources become a textual placeholder; `ToolUse` keeps its JSON
input inline; `ToolResult` becomes the tagged `tool_result` block). -/
def anthropicConvertBlock (b : ContentBlock) : AnthropicContentBlock :=
  match b with
  | .text text => .text text
  | .image (.base64 media_type data) =>
      .image { source_type := "base64", media_type := media_type, data := data }
  | .image (.url url) => .text ("[Image URL: " ++ url ++ "]")
  | .toolUse id name input => .toolUse id name input
  | .toolResult tool_use_id content is_error => .toolResult tool_use_id content is_error

/-- anthropic.rs `convert_messages`: System messages are filtered out, the
remaining roles map to the vendor's two roles (`Tool` joins `User`), and
blocks convert elementwise. -/
def anthropicConvertMessages (messages : List ChatMessage) : List AnthropicMessage :=
  (messages.filter (fun m => m.role ≠ .system)).map (fun m =>
    { role :=
        match m.role with
        | .user | .tool => "user"
        | .assistant => "assistant"
        | .system => "user"
      content :=
        match m.content with
        | .text content => .text content
        | .blocks content => .blocks (content.map anthropicConvertBlock) })

/-- anthropic.rs `convert_response`: conversion of one vendor block back to
the unified model (images come back as Base64 sources). -/
def anthropicBlockToUnified (b : AnthropicContentBlock) : ContentBlock :=
  match b with
  | .text text => .text text
  | .image source => .image (.base64 source.media_type source.data)
  | .toolUse id name input => .toolUse id name input
  | .toolResult tool_use_id content is_error => .toolResult tool_use_id content is_error

/-- anthropic.rs stop-reason vocabulary mapping (shared by `convert_response`,
`convert_stream_event` and the inline copy in `chat_stream`); unrecognized
reasons default to `EndTurn`. -/
def anthropicMapStopReason (r : String) : StopReason :=
  if r = "end_turn" then .endTurn
  else if r = "max_tokens" then .maxTokens
  else if r = "stop_sequence" then .stopSequence
  else if r = "tool_use" then .toolUse
  else .endTurn

/-- anthropic.rs `convert_response`. -/
def anthropicConvertResponse (response : AnthropicResponse) : ChatResponse :=
  { id := response.id
    content := response.content.map anthropicBlockToUnified
    stop_reason := response.stop_reason.map anthropicMapStopReason
    usage := { input_tokens := response.usage.input_tokens,
               output_tokens := response.usage.output_tokens }
    model := response.model }

/-- The shared HTTP error path of anthropic.rs `chat` and `chat_stream`
(identical code in both): on a non-2xx status, `parsedMessage` is `some m`
when the body text parses as `AnthropicError` with inner message `m`, and
`none` when it does not parse. -/
def anthropicHttpError (status : Nat) (body : String) (parsedMessage : Option String) :
    ProviderError :=
  match parsedMessage with
  | some m => if status = 429 then .rateLimited none else .apiError status m
  | none => .apiError status body

/-! ## Anthropic streaming (providers/anthropic.rs, `chat_stream`) -/

/-- `AnthropicStreamMessage`. -/
structure AnthropicStreamMessage where
  id : String
  model : String

/-- `AnthropicDelta`. -/
inductive AnthropicDelta where
  | textDelta (text : String)
  | inputJsonDelta (partial_json : String)

/-- `AnthropicMessageDelta`. -/
structure AnthropicMessageDelta where
  stop_reason : Option String

/-- `AnthropicStreamEvent`: the tagged SSE event types of the vendor. -/
inductive AnthropicStreamEvent where
  | messageStart (message : AnthropicStreamMessage)
  | contentBlockStart (index : Nat) (content_block : AnthropicContentBlock)
  | contentBlockDelta (index : Nat) (delta : AnthropicDelta)
  | contentBlockStop (index : Nat)
  | messageDelta (delta : AnthropicMessageDelta) (usage : Option AnthropicUsage)
  | messageStop
  | ping
  | error (error : AnthropicErrorDetail)

/-- anthropic.rs: conversion of one vendor stream event to a unified chunk
(the body of `convert_stream_event`, duplicated verbatim inside
`chat_stream`). -/
def anthropicConvertStreamEvent (event : AnthropicStreamEvent) : ChatChunk :=
  match event with
  | .messageStart message => .messageStart message.id message.model
  | .contentBlockStart index content_block =>
      .contentBlockStart index (anthropicBlockToUnified content_block)
  | .contentBlockDelta index delta =>
      .contentBlockDelta index
        (match delta with
         | .textDelta text => .textDelta text
         | .inputJsonDelta partial_json => .inputJsonDelta partial_json)
  | .contentBlockStop index => .contentBlockStop index
  | .messageDelta delta usage =>
      .messageDelta (delta.stop_reason.map anthropicMapStopReason)
        (usage.map (fun u =>
          { input_tokens := u.input_tokens, output_tokens := u.output_tokens }))
  | .messageStop => .messageStop
  | .ping => .ping
  | .error error => .error error.message

/-- One line of a transport chunk of the Anthropic SSE stream, as the decoder
classifies it: no `data: ` marker (skipped), the `[DONE]` sentinel (skipped by
`continue`), a payload parsed as an `AnthropicStreamEvent`, or a malformed
payload (skipped). -/
inductive AnthropicSseLine where
  | notData
  | done
  | frame (e : AnthropicStreamEvent)
  | malformed

/-- anthropic.rs `chat_stream`: the events produced for one transport chunk —
every parsed frame is converted and pushed, every other line contributes
nothing, and processing never stops early. -/
def anthropicDecodeChunk (lines : List AnthropicSseLine) : List ChatChunk :=
  lines.filterMap (fun l =>
    match l with
    | .frame e => some (anthropicConvertStreamEvent e)
    | _ => none)

/-- anthropic.rs `chat_stream`: the whole event sequence of a stream whose
transport delivers the given chunks. -/
def anthropicDecodeStream (chunks : List (List AnthropicSseLine)) : List ChatChunk :=
  (chunks.map anthropicDecodeChunk).flatten

/-! ## Event classifiers used in the statements -/

/-- Whether a unified event is a `MessageStart`. -/
def isMessageStart (e : ChatChunk) : Bool :=
  match e with
  | .messageStart _ _ => true
  | _ => false

/-- Whether a unified event is a `ContentBlockStop`. -/
def isContentBlockStop (e : ChatChunk) : Bool :=
  match e with
  | .contentBlockStop _ => true
  | _ => false

/-- The events a line of an OpenAI transport chunk contributes once the
per-chunk vector is already nonempty (no `MessageStart` synthesis). -/
def openaiLineEventsTail (line : OpenAISseLine) : List ChatChunk :=
  match line with
  | .notData => []
  | .malformed => []
  | .done => [.messageStop]
  | .frame c => (c.choices.map (openaiChoiceEvents c.usage)).flatten

/-! ## Auxiliary measures and predicates for the statements and proofs -/

mutual

/-- Parser fuel sufficient for a value (proved below to be at most twice the
rendered length). -/
def jsonFuel : Json → Nat
  | .arr xs => 1 + arrFuel xs
  | .obj kvs => 1 + objFuel kvs
  | _ => 1

/-- Parser fuel sufficient for the element list of an array. -/
def arrFuel : List Json → Nat
  | [] => 1
  | v :: xs => 1 + jsonFuel v + arrFuel xs

/-- Parser fuel sufficient for the member list of an object. -/
def objFuel : List (String × Json) → Nat
  | [] => 1
  | kv :: kvs => 1 + jsonFuel kv.2 + objFuel kvs

end

/-- The continuation does not begin with a decimal digit (the boundary
condition under which the greedy number parse stops where the renderer
stopped). -/
def headNotDigit (s : List Char) : Prop :=
  ∀ c, s.head? = some c → c.isDigit = false

/-- Characters that can begin a rendered JSON value. -/
def isValueStart (c : Char) : Bool :=
  c = 'n' || c = 't' || c = 'f' || c = '"' || c = '[' || c = lcurly || c = '-' || c.isDigit

/-- A frame of the OpenAI stream that begins one tool call: it carries the
vendor tool-call index, the call id and the function name, and no argument
fragment yet. -/
def mkToolStartFrame (mid : String) (n : Nat) (callId fnName : String) :
    OpenAIStreamChunk :=
  { id := mid
    choices := [{ index := 0
                  delta := { role := some "assistant", content := none
                             tool_calls := some [{ index := n, id := some callId
                                                   call_type := some "function"
                                                   function := some { name := some fnName
                                                                      arguments := none } }] }
                  finish_reason := none }]
    model := "gpt-4o", usage := none }

/-- A frame of the OpenAI stream that carries one argument fragment for the
tool call at the given vendor index (no id, no name). -/
def mkToolArgFrame (mid : String) (n : Nat) (args : String) : OpenAIStreamChunk :=
  { id := mid
    choices := [{ index := 0
                  delta := { role := none, content := none
                             tool_calls := some [{ index := n, id := none
                                                   call_type := none
                                                   function := some { name := none
                                                                      arguments := some args } }] }
                  finish_reason := none }]
    model := "gpt-4o", usage := none }

/-- A frame of the OpenAI stream that carries one piece of text content. -/
def mkTextFrame (mid piece : String) : OpenAIStreamChunk :=
  { id := mid
    choices := [{ index := 0
                  delta := { role := some "assistant", content := some piece
                             tool_calls := none }
                  finish_reason := none }]
    model := "gpt-4o", usage := none }

/-! ## Claim C1 — HTTP 429 mapping -/

/-- C1: "For every HTTP response with status 429 received by either vendor's
chat or chat_stream call (regardless of whether the response body parses as a
vendor error structure), the returned error is RateLimited, never ApiError."
This is FALSE: in both vendors the 429 check sits inside the
`if let Ok(error) = serde_json::from_str(..)` arm, so a 429 whose body does
not parse as the vendor error structure falls through to
`ApiError { status: 429, message: raw body }`.  Concrete input: status 429
with the plain-text body "Too Many Requests" (not JSON). -/
theorem C1_counterexample :
    anthropicHttpError 429 "Too Many Requests" none =
        ProviderError.apiError 429 "Too Many Requests" ∧
      openaiHttpError 429 "Too Many Requests" none =
        ProviderError.apiError 429 "Too Many Requests" :=
  ⟨rfl, rfl⟩

/-- C1 (amended): an HTTP 429 from either vendor's chat or chat_stream call
yields RateLimited when the response body parses as the vendor error
structure; a 429 whose body does not parse yields
`ApiError { status: 429, message: raw body text }` instead. -/
theorem C1_amended_429_mapping :
    (∀ (body m : String), anthropicHttpError 429 body (some m) =
        ProviderError.rateLimited none) ∧
    (∀ body : String, anthropicHttpError 429 body none =
        ProviderError.apiError 429 body) ∧
    (∀ (body m : String), openaiHttpError 429 body (some m) =
        ProviderError.rateLimited none) ∧
    (∀ body : String, openaiHttpError 429 body none =
        ProviderError.apiError 429 body) :=
  ⟨fun _ _ => rfl, fun _ => rfl, fun _ _ => rfl, fun _ => rfl⟩

/-! ## Claim C4 — mid-stream vendor error frames -/

/-- C4: "For every streamed response in which the vendor reports a mid-stream
error frame, the decoder emits a single Error{message} event and then stops
consuming further bytes: no further event of any kind is emitted after the
Error event."  This is FALSE: the Anthropic stream decoder has no stop logic —
it pushes the Error chunk and keeps converting subsequent frames.  Concrete
input: a transport chunk carrying an error frame followed by a ping frame;
the decoder emits a Ping event after the Error event. -/
theorem C4_counterexample :
    anthropicDecodeChunk
        [.frame (.error { error_type := "overloaded_error", message := "Overloaded" }),
         .frame .ping] =
      [ChatChunk.error "Overloaded", ChatChunk.ping] :=
  rfl

/-- C4 (amended): a vendor-reported mid-stream error frame is forwarded as a
single Error{message} event, but the decoder does not stop: every frame after
the error frame is still decoded and emitted exactly as it would be without
the preceding error. -/
theorem C4_amended_error_forwarded :
    ∀ (pre post : List AnthropicSseLine) (e : AnthropicErrorDetail),
      anthropicDecodeChunk (pre ++ .frame (.error e) :: post) =
        anthropicDecodeChunk pre ++ ChatChunk.error e.message :: anthropicDecodeChunk post := by
  intro pre post e
  simp [anthropicDecodeChunk, anthropicConvertStreamEvent]

/-! ## Claim C7 — [DONE] sentinel synthesizes the final MessageStop -/

/-- The `[DONE]` sentinel appends exactly one `MessageStop` to the
per-transport-chunk event vector. -/
theorem openaiDecodeChunk_concat_done (model : String) (ls : List OpenAISseLine) :
    openaiDecodeChunk model (ls ++ [.done]) =
      openaiDecodeChunk model ls ++ [ChatChunk.messageStop] := by
  unfold openaiDecodeChunk
  rw [List.foldl_append]
  rfl

/-- C7: for every OpenAI-style SSE body that ends with the `[DONE]` sentinel
line (the vendor has no explicit terminal event type at all), the decoder
emits a synthesized MessageStop event, and it is the last event emitted by
the stream.  The stream is any chunk sequence whose final transport chunk
ends with the sentinel line. -/
theorem C7_done_is_last_event :
    ∀ (model : String) (chunks : List (List OpenAISseLine))
      (lastLines : List OpenAISseLine),
      (openaiDecodeStream model (chunks ++ [lastLines ++ [.done]])).getLast? =
        some ChatChunk.messageStop := by
  intro model chunks lastLines
  unfold openaiDecodeStream
  rw [List.map_append, List.flatten_append]
  simp [openaiDecodeChunk_concat_done, ← List.append_assoc]

/-! ## Claim C8 — decode_response field mapping -/

/-- C8: for every vendor response body, decode_response maps a stop reason
outside the recognized vendor vocabulary to EndTurn, copies the usage
counters 1:1 into `Usage { input_tokens, output_tokens }` (for OpenAI the
counters live in an optional `usage` object; they are copied 1:1 whenever
present), and preserves the vendor message id and resolved model string
unchanged in the ChatResponse. -/
theorem C8_decode_response_fields :
    (∀ (resp : AnthropicResponse) (r : String),
        resp.stop_reason = some r →
        r ≠ "end_turn" → r ≠ "max_tokens" → r ≠ "stop_sequence" → r ≠ "tool_use" →
        (anthropicConvertResponse resp).stop_reason = some StopReason.endTurn) ∧
    (∀ resp : AnthropicResponse,
        (anthropicConvertResponse resp).usage =
            { input_tokens := resp.usage.input_tokens,
              output_tokens := resp.usage.output_tokens } ∧
          (anthropicConvertResponse resp).id = resp.id ∧
          (anthropicConvertResponse resp).model = resp.model) ∧
    (∀ (resp : OpenAIResponse) (choice : OpenAIChoice) (r : String),
        resp.choices.head? = some choice →
        choice.finish_reason = some r →
        r ≠ "stop" → r ≠ "length" → r ≠ "tool_calls" →
        (openaiConvertResponse resp).stop_reason = some StopReason.endTurn) ∧
    (∀ (resp : OpenAIResponse) (u : OpenAIUsage),
        resp.usage = some u →
        (openaiConvertResponse resp).usage =
          { input_tokens := u.prompt_tokens, output_tokens := u.completion_tokens }) ∧
    (∀ resp : OpenAIResponse,
        (openaiConvertResponse resp).id = resp.id ∧
          (openaiConvertResponse resp).model = resp.model) := by
  refine ⟨?_, ?_, ?_, ?_, ?_⟩
  · intro resp r h1 h2 h3 h4 h5
    simp [anthropicConvertResponse, h1, anthropicMapStopReason, h2, h3, h4, h5]
  · intro resp
    exact ⟨rfl, rfl, rfl⟩
  · intro resp choice r h1 h2 h3 h4 h5
    simp [openaiConvertResponse, h1, h2, openaiMapFinishReason, h3, h4, h5]
  · intro resp u h
    simp [openaiConvertResponse, h]
  · intro resp
    exact ⟨rfl, rfl⟩

/-- Witness for C8 at concrete inputs: an Anthropic response whose
stop_reason "pause_turn" is outside the vocabulary maps to EndTurn; an OpenAI
response with finish_reason "content_filter" maps to EndTurn and its usage
counters are copied 1:1. -/
theorem C8_witness :
    (anthropicConvertResponse
        { id := "msg_1", content := [], stop_reason := some "pause_turn",
          usage := { input_tokens := 3, output_tokens := 5 },
          model := "claude-sonnet-4-20250514" }).stop_reason = some StopReason.endTurn ∧
    (openaiConvertResponse
        { id := "chatcmpl-8",
          choices := [{ message := { role := "assistant", content := some "hi",
                                     tool_calls := none },
                        finish_reason := some "content_filter", index := 0 }],
          usage := some { prompt_tokens := 2, completion_tokens := 4, total_tokens := 6 },
          model := "gpt-4o" }).stop_reason = some StopReason.endTurn ∧
    (openaiConvertResponse
        { id := "chatcmpl-8",
          choices := [{ message := { role := "assistant", content := some "hi",
                                     tool_calls := none },
                        finish_reason := some "content_filter", index := 0 }],
          usage := some { prompt_tokens := 2, completion_tokens := 4, total_tokens := 6 },
          model := "gpt-4o" }).usage = { input_tokens := 2, output_tokens := 4 } :=
  ⟨C8_decode_response_fields.1 _ "pause_turn" rfl (by decide) (by decide) (by decide)
      (by decide),
   C8_decode_response_fields.2.2.1 _ _ "content_filter" rfl rfl (by decide) (by decide)
      (by decide),
   C8_decode_response_fields.2.2.2.1 _ _ rfl⟩

/-! ## Claim C9 — unparseable tool-call arguments decode to null -/

/-- C9: for every OpenAI response containing a tool call whose arguments
string fails to parse as JSON, decode_response produces a ToolUse block whose
input is the JSON null value (`unwrap_or_default()` on the failed
`serde_json::from_str`, and `Value::default()` is `Null`).  No error is
raised for that tool call: the Rust `convert_response` returns `ChatResponse`
rather than `Result`, and its embedding `openaiConvertResponse` is total. -/
theorem C9_unparseable_arguments_null :
    ∀ (resp : OpenAIResponse) (choice : OpenAIChoice) (tcs : List OpenAIToolCall)
      (tc : OpenAIToolCall),
      resp.choices.head? = some choice →
      choice.message.tool_calls = some tcs →
      tc ∈ tcs →
      jsonParse tc.function.arguments = none →
      ContentBlock.toolUse tc.id tc.function.name Json.null ∈
        (openaiConvertResponse resp).content := by
  intro resp choice tcs tc h1 h2 h3 h4
  have hmem : ContentBlock.toolUse tc.id tc.function.name Json.null ∈
      tcs.map openaiDecodeToolCall := by
    rw [List.mem_map]
    exact ⟨tc, h3, by simp [openaiDecodeToolCall, h4]⟩
  simp only [openaiConvertResponse, h1, Option.map_some', h2]
  exact List.mem_append.mpr (Or.inr hmem)

/-- Witness for C9 at a concrete input: arguments "not json" fails to parse
and yields a ToolUse block with null input. -/
theorem C9_witness :
    ContentBlock.toolUse "call_9" "do_thing" Json.null ∈
      (openaiConvertResponse
        { id := "chatcmpl-9",
          choices := [{ message := { role := "assistant", content := none,
                                     tool_calls := some
                                       [{ id := "call_9", call_type := "function",
                                          function := { name := "do_thing",
                                                        arguments := "not json" } }] },
                        finish_reason := some "tool_calls", index := 0 }],
          usage := none, model := "gpt-4o" }).content :=
  C9_unparseable_arguments_null
    { id := "chatcmpl-9",
      choices := [{ message := { role := "assistant", content := none,
                                 tool_calls := some
                                   [{ id := "call_9", call_type := "function",
                                      function := { name := "do_thing",
                                                    arguments := "not json" } }] },
                    finish_reason := some "tool_calls", index := 0 }],
      usage := none, model := "gpt-4o" }
    { message := { role := "assistant", content := none,
                   tool_calls := some
                     [{ id := "call_9", call_type := "function",
                        function := { name := "do_thing", arguments := "not json" } }] },
      finish_reason := some "tool_calls", index := 0 }
    [{ id := "call_9", call_type := "function",
       function := { name := "do_thing", arguments := "not json" } }]
    { id := "call_9", call_type := "function",
      function := { name := "do_thing", arguments := "not json" } }
    rfl rfl (by simp) rfl

/-! ## Claim C10 — degenerate OpenAI response bodies -/

/-- C10: for every OpenAI response body with an empty choices array,
decode_response returns a ChatResponse with empty content and stop_reason
None rather than failing; and for every response body lacking a usage field,
the returned usage is `Usage { input_tokens: 0, output_tokens: 0 }`
(`unwrap_or_default()` on the optional usage object). -/
theorem C10_degenerate_response_defaults :
    (∀ resp : OpenAIResponse, resp.choices = [] →
        (openaiConvertResponse resp).content = [] ∧
          (openaiConvertResponse resp).stop_reason = none) ∧
    (∀ resp : OpenAIResponse, resp.usage = none →
        (openaiConvertResponse resp).usage = { input_tokens := 0, output_tokens := 0 }) := by
  constructor
  · intro resp h
    constructor <;> simp [openaiConvertResponse, h]
  · intro resp h
    simp [openaiConvertResponse, h]

/-- Witness for C10 at a concrete input: a response with no choices and no
usage object. -/
theorem C10_witness :
    (openaiConvertResponse
        { id := "chatcmpl-10", choices := [], usage := none, model := "gpt-4o" }).content =
        [] ∧
      (openaiConvertResponse
        { id := "chatcmpl-10", choices := [], usage := none, model := "gpt-4o" }).stop_reason =
        none ∧
      (openaiConvertResponse
        { id := "chatcmpl-10", choices := [], usage := none, model := "gpt-4o" }).usage =
        { input_tokens := 0, output_tokens := 0 } :=
  ⟨(C10_degenerate_response_defaults.1 _ rfl).1,
   (C10_degenerate_response_defaults.1 _ rfl).2,
   C10_degenerate_response_defaults.2 _ rfl⟩

/-! ## Claim C3 — tool-result placement -/

/-- C3: "For every unified message holding at least one ToolResult block, each
vendor transcoder re-emits each ToolResult in that vendor's dedicated
tool-output form regardless of the message's Role (including Role::Tool) ..."
This is FALSE for the OpenAI transcoder: tool results are only handled in the
`Role::User` branch of `convert_messages`, and the `Role::Tool` branch is an
empty no-op, so a Role::Tool message holding a ToolResult block is dropped
entirely — no role-"tool" message (and no message at all) is emitted. -/
theorem C3_counterexample :
    openaiConvertMessages { model := "gpt-4o", system_prompt := none }
        [{ role := .tool, content := .blocks [.toolResult "call_1" "ok" none] }] =
      ([] : List OpenAIMessage) :=
  rfl

/-- C3 (amended): for every unified **User**-role message whose blocks hold at
least one ToolResult, each vendor re-emits each ToolResult in its dedicated
tool-output form — OpenAI as one separate message per ToolResult with role
"tool" and a tool_call_id field, emitting no ordinary user message for the
message's other blocks; Anthropic as tagged tool_result blocks inside the
single user-role message it emits.  A Role::Tool message is re-emitted by
Anthropic in the same user-role form, but is dropped entirely by OpenAI. -/
theorem C3_amended_tool_result_placement :
    ∀ (sp : Option String) (content : List ContentBlock),
      (content.filterMap toolResultView).isEmpty = false →
      (openaiConvertMessage sp { role := .user, content := .blocks content } =
          (content.filterMap toolResultView).map openaiToolResultMsg) ∧
      (∀ m ∈ openaiConvertMessage sp { role := .user, content := .blocks content },
          m.role = "tool" ∧ m.tool_call_id.isSome = true) ∧
      (openaiConvertMessage sp { role := .tool, content := .blocks content } = []) ∧
      (anthropicConvertMessages [{ role := .user, content := .blocks content }] =
          [{ role := "user", content := .blocks (content.map anthropicConvertBlock) }]) ∧
      (anthropicConvertMessages [{ role := .tool, content := .blocks content }] =
          [{ role := "user", content := .blocks (content.map anthropicConvertBlock) }]) ∧
      (∀ (tid c : String) (ie : Option Bool),
          ContentBlock.toolResult tid c ie ∈ content →
          AnthropicContentBlock.toolResult tid c ie ∈ content.map anthropicConvertBlock) := by
  intro sp content h
  have hopenai : openaiConvertMessage sp { role := .user, content := .blocks content } =
      (content.filterMap toolResultView).map openaiToolResultMsg := by
    simp [openaiConvertMessage, h]
  refine ⟨hopenai, ?_, rfl, ?_, ?_, ?_⟩
  · intro m hm
    rw [hopenai, List.mem_map] at hm
    obtain ⟨tr, _, rfl⟩ := hm
    exact ⟨rfl, rfl⟩
  · simp [anthropicConvertMessages]
  · simp [anthropicConvertMessages]
  · intro tid c ie hmem
    rw [List.mem_map]
    exact ⟨.toolResult tid c ie, hmem, rfl⟩

/-- Witness for C3 (amended) at a concrete input: a user message holding one
ToolResult block and one Text block. -/
theorem C3_witness :
    openaiConvertMessage none
        { role := .user,
          content := .blocks [.toolResult "call_3" "result text" none, .text "aside"] } =
      [{ role := "tool", content := some (.text "result text"), tool_calls := none,
         tool_call_id := some "call_3", name := none }] ∧
    anthropicConvertMessages
        [{ role := .tool,
           content := .blocks [.toolResult "call_3" "result text" none, .text "aside"] }] =
      [{ role := "user",
         content := .blocks [.toolResult "call_3" "result text" none, .text "aside"] }] :=
  ⟨(C3_amended_tool_result_placement none
      [.toolResult "call_3" "result text" none, .text "aside"] rfl).1,
   (C3_amended_tool_result_placement none
      [.toolResult "call_3" "result text" none, .text "aside"] rfl).2.2.2.2.1⟩

/-! ## Stream-decoder structure lemmas (shared by C2 and C5) -/

/-- Every event produced for one streamed tool-call entry is a
`ContentBlockStart` or `ContentBlockDelta`; never a `MessageStart` and never a
`ContentBlockStop`. -/
theorem openaiToolCallEvents_classify (tc : OpenAIStreamToolCall) :
    ∀ e ∈ openaiToolCallEvents tc,
      isMessageStart e = false ∧ isContentBlockStop e = false := by
  obtain ⟨idx, oid, oct, ofn⟩ := tc
  intro e he
  rcases ofn with _ | ⟨fname, fargs⟩
  · rcases oid with _ | id
    · simp [openaiToolCallEvents] at he
    · simp [openaiToolCallEvents] at he
      subst he; exact ⟨rfl, rfl⟩
  · rcases fargs with _ | args
    · rcases oid with _ | id
      · simp [openaiToolCallEvents] at he
      · simp [openaiToolCallEvents] at he
        subst he; exact ⟨rfl, rfl⟩
    · by_cases hz : args.isEmpty
      · rcases oid with _ | id
        · simp [openaiToolCallEvents, hz] at he
        · simp [openaiToolCallEvents, hz] at he
          subst he; exact ⟨rfl, rfl⟩
      · rcases oid with _ | id
        · simp [openaiToolCallEvents, hz] at he
          subst he; exact ⟨rfl, rfl⟩
        · simp [openaiToolCallEvents, hz] at he
          rcases he with rfl | rfl <;> exact ⟨rfl, rfl⟩

/-- Every event produced for one streamed `choices[]` entry is a content or
message-delta event; never a `MessageStart` and never a `ContentBlockStop`. -/
theorem openaiChoiceEvents_classify (u : Option OpenAIUsage) (ch : OpenAIStreamChoice) :
    ∀ e ∈ openaiChoiceEvents u ch,
      isMessageStart e = false ∧ isContentBlockStop e = false := by
  intro e he
  unfold openaiChoiceEvents at he
  rcases List.mem_append.mp he with h | h
  · rcases List.mem_append.mp h with h1 | h1
    · rcases hc : ch.delta.content with _ | content <;> rw [hc] at h1
      · simp at h1
      · by_cases hz : content.isEmpty <;> simp [hz] at h1
        subst h1
        exact ⟨rfl, rfl⟩
    · rcases ht : ch.delta.tool_calls with _ | tool_calls <;> rw [ht] at h1
      · simp at h1
      · rw [List.mem_flatten] at h1
        obtain ⟨l, hl, hel⟩ := h1
        rw [List.mem_map] at hl
        obtain ⟨tc, _, rfl⟩ := hl
        exact openaiToolCallEvents_classify tc e hel
  · rcases hr : ch.finish_reason with _ | r <;> rw [hr] at h
    · simp at h
    · rw [List.mem_singleton] at h
      subst h
      exact ⟨rfl, rfl⟩

/-- Once the per-chunk vector is nonempty, each further line contributes
exactly its tail events (no `MessageStart` synthesis). -/
theorem openaiFoldl_of_ne_nil (model : String) :
    ∀ (ls : List OpenAISseLine) (acc : List ChatChunk), acc ≠ [] →
      ls.foldl (openaiProcessLine model) acc =
        acc ++ (ls.map openaiLineEventsTail).flatten := by
  intro ls
  induction ls with
  | nil => intro acc _; simp
  | cons l ls ih =>
      intro acc hacc
      have hne : acc.isEmpty = false := by
        rcases acc with _ | _
        · exact absurd rfl hacc
        · rfl
      have hstep : openaiProcessLine model acc l = acc ++ openaiLineEventsTail l := by
        cases l <;> simp [openaiProcessLine, openaiLineEventsTail, hne]
      rw [List.foldl_cons, hstep,
        ih (acc ++ openaiLineEventsTail l) (by simp [hacc])]
      simp

/-- Lines without a parseable frame and without the sentinel leave the empty
per-chunk vector empty. -/
theorem openaiFoldl_inert (model : String) :
    ∀ pre : List OpenAISseLine,
      (∀ l ∈ pre, l = OpenAISseLine.notData ∨ l = OpenAISseLine.malformed) →
      pre.foldl (openaiProcessLine model) [] = [] := by
  intro pre
  induction pre with
  | nil => intro _; rfl
  | cons l ls ih =>
      intro h
      rcases h l (List.mem_cons_self l ls) with rfl | rfl <;>
        exact ih (fun x hx => h x (List.mem_cons_of_mem _ hx))

/-- Shape of the events of one transport chunk whose first data frame is `c`:
a synthesized `MessageStart` first, then `c`'s choice events, then the tail
events of the remaining lines. -/
theorem openaiDecodeChunk_first_frame (model : String) (pre post : List OpenAISseLine)
    (c : OpenAIStreamChunk)
    (hpre : ∀ l ∈ pre, l = OpenAISseLine.notData ∨ l = OpenAISseLine.malformed) :
    openaiDecodeChunk model (pre ++ .frame c :: post) =
      ChatChunk.messageStart c.id model ::
        ((c.choices.map (openaiChoiceEvents c.usage)).flatten ++
          (post.map openaiLineEventsTail).flatten) := by
  unfold openaiDecodeChunk
  rw [List.foldl_append, openaiFoldl_inert model pre hpre, List.foldl_cons]
  have hstep : openaiProcessLine model [] (.frame c) =
      ChatChunk.messageStart c.id model ::
        (c.choices.map (openaiChoiceEvents c.usage)).flatten := by
    simp [openaiProcessLine]
  rw [hstep, openaiFoldl_of_ne_nil model post _ (by simp)]
  simp

/-- The tail events of any line contain no `MessageStart`. -/
theorem openaiLineEventsTail_no_start (l : OpenAISseLine) :
    ∀ e ∈ openaiLineEventsTail l, isMessageStart e = false := by
  intro e he
  cases l with
  | notData => simp [openaiLineEventsTail] at he
  | malformed => simp [openaiLineEventsTail] at he
  | done =>
      rw [openaiLineEventsTail, List.mem_singleton] at he
      subst he; rfl
  | frame c =>
      rw [openaiLineEventsTail, List.mem_flatten] at he
      obtain ⟨x, hx, hex⟩ := he
      rw [List.mem_map] at hx
      obtain ⟨ch, _, rfl⟩ := hx
      exact (openaiChoiceEvents_classify c.usage ch e hex).1

/-! ## Claim C2 — MessageStart synthesis -/

/-- C2: "For every OpenAI-style stream, the decoder synthesizes MessageStart
on the first content-bearing frame, and exactly one MessageStart event is
emitted per stream ... even when the stream's frames arrive split across
multiple transport chunks."  This is FALSE: the `chunks.is_empty()` check
that guards the synthesis is local to each transport chunk (the vector is
created afresh inside the closure mapped over `bytes_stream()`), so a stream
whose two frames arrive in two transport chunks gets two MessageStart
events. -/
theorem C2_counterexample :
    (openaiDecodeStream "gpt-4o"
        [[.frame (mkTextFrame "chatcmpl-2" "Hel")],
         [.frame (mkTextFrame "chatcmpl-2" "lo")]]).countP isMessageStart = 2 :=
  rfl

/-- C2 (amended): MessageStart synthesis is per transport chunk, not per
stream.  Within one transport chunk whose earlier lines carry no data frame
and no sentinel, the first parseable frame synthesizes MessageStart: it is
the first event of the chunk, emitted before any ContentBlockStart or
ContentBlockDelta, and it is the only MessageStart of that chunk; but a
stream whose frames arrive split across several such transport chunks emits
one MessageStart per frame-bearing chunk. -/
theorem C2_amended_per_chunk_start :
    ∀ (model : String) (pre post : List OpenAISseLine) (c : OpenAIStreamChunk),
      (∀ l ∈ pre, l = OpenAISseLine.notData ∨ l = OpenAISseLine.malformed) →
      openaiDecodeChunk model (pre ++ .frame c :: post) =
          ChatChunk.messageStart c.id model ::
            ((c.choices.map (openaiChoiceEvents c.usage)).flatten ++
              (post.map openaiLineEventsTail).flatten) ∧
        (openaiDecodeChunk model (pre ++ .frame c :: post)).countP isMessageStart = 1 := by
  intro model pre post c hpre
  have hshape := openaiDecodeChunk_first_frame model pre post c hpre
  refine ⟨hshape, ?_⟩
  rw [hshape, List.countP_cons_of_pos _ _ (by rfl), List.countP_append]
  have h1 : ((c.choices.map (openaiChoiceEvents c.usage)).flatten).countP isMessageStart = 0 := by
    rw [List.countP_eq_zero]
    intro e he
    rw [List.mem_flatten] at he
    obtain ⟨x, hx, hex⟩ := he
    rw [List.mem_map] at hx
    obtain ⟨ch, _, rfl⟩ := hx
    simp [(openaiChoiceEvents_classify c.usage ch e hex).1]
  have h2 : ((post.map openaiLineEventsTail).flatten).countP isMessageStart = 0 := by
    rw [List.countP_eq_zero]
    intro e he
    rw [List.mem_flatten] at he
    obtain ⟨x, hx, hex⟩ := he
    rw [List.mem_map] at hx
    obtain ⟨l, _, rfl⟩ := hx
    simp [openaiLineEventsTail_no_start l e hex]
  rw [h1, h2]

/-- Witness for C2 (amended) at a concrete input: one transport chunk with an
unparseable line, then a text frame, then the sentinel. -/
theorem C2_witness :
    openaiDecodeChunk "gpt-4o" [.malformed, .frame (mkTextFrame "chatcmpl-2w" "Hi"), .done] =
        [ChatChunk.messageStart "chatcmpl-2w" "gpt-4o",
         ChatChunk.contentBlockDelta 0 (.textDelta "Hi"),
         ChatChunk.messageStop] ∧
      (openaiDecodeChunk "gpt-4o"
          [.malformed, .frame (mkTextFrame "chatcmpl-2w" "Hi"), .done]).countP
        isMessageStart = 1 :=
  C2_amended_per_chunk_start "gpt-4o" [.malformed] [.done] (mkTextFrame "chatcmpl-2w" "Hi")
    (fun _l hl => Or.inr (List.mem_singleton.mp hl))

/-! ## Claim C5 — tool-call indices in the OpenAI stream -/

/-- C5: "For every OpenAI-style stream carrying two interleaved tool calls,
the decoder emits ContentBlockStart, ContentBlockDelta, and ContentBlockStop
events for each tool call with two distinct, stable indices ..."  This is
FALSE in its ContentBlockStop part: the OpenAI stream decoder never emits any
ContentBlockStop (the vendor has no block-end signal and none is
synthesized).  Concrete input: a stream with two interleaved tool calls at
vendor indices 0 and 1 produces zero ContentBlockStop events. -/
theorem C5_counterexample :
    (openaiDecodeStream "gpt-4o"
        [[.frame (mkToolStartFrame "chatcmpl-5" 0 "call_a" "fn_a"),
          .frame (mkToolArgFrame "chatcmpl-5" 0 "x"),
          .frame (mkToolStartFrame "chatcmpl-5" 1 "call_b" "fn_b"),
          .frame (mkToolArgFrame "chatcmpl-5" 1 "y"),
          .frame (mkToolArgFrame "chatcmpl-5" 0 "z"),
          .frame (mkToolArgFrame "chatcmpl-5" 1 "w")]]).countP isContentBlockStop = 0 :=
  rfl

/-- C5 (amended): for a stream carrying two interleaved tool calls at
distinct vendor indices, the decoder emits ContentBlockStart and
ContentBlockDelta events for each call at two distinct, stable indices (the
call at vendor index n appears at emitted index n+1, one past the implicit
text block at index 0), neither index reused for the other call — but no
ContentBlockStop events at all. -/
theorem C5_amended_two_tool_calls :
    ∀ (model mid id1 id2 nm1 nm2 a1 b1 a2 b2 : String) (n1 n2 : Nat),
      n1 ≠ n2 →
      a1.isEmpty = false → b1.isEmpty = false →
      a2.isEmpty = false → b2.isEmpty = false →
      openaiDecodeStream model
          [[.frame (mkToolStartFrame mid n1 id1 nm1),
            .frame (mkToolArgFrame mid n1 a1),
            .frame (mkToolStartFrame mid n2 id2 nm2),
            .frame (mkToolArgFrame mid n2 b1),
            .frame (mkToolArgFrame mid n1 a2),
            .frame (mkToolArgFrame mid n2 b2)]] =
          [.messageStart mid model,
           .contentBlockStart (n1 + 1) (.toolUse id1 nm1 (.obj [])),
           .contentBlockDelta (n1 + 1) (.inputJsonDelta a1),
           .contentBlockStart (n2 + 1) (.toolUse id2 nm2 (.obj [])),
           .contentBlockDelta (n2 + 1) (.inputJsonDelta b1),
           .contentBlockDelta (n1 + 1) (.inputJsonDelta a2),
           .contentBlockDelta (n2 + 1) (.inputJsonDelta b2)] ∧
        n1 + 1 ≠ n2 + 1 ∧
        (openaiDecodeStream model
            [[.frame (mkToolStartFrame mid n1 id1 nm1),
              .frame (mkToolArgFrame mid n1 a1),
              .frame (mkToolStartFrame mid n2 id2 nm2),
              .frame (mkToolArgFrame mid n2 b1),
              .frame (mkToolArgFrame mid n1 a2),
              .frame (mkToolArgFrame mid n2 b2)]]).countP isContentBlockStop = 0 := by
  intro model mid id1 id2 nm1 nm2 a1 b1 a2 b2 n1 n2 hn h1 h2 h3 h4
  have hshape : openaiDecodeStream model
      [[.frame (mkToolStartFrame mid n1 id1 nm1),
        .frame (mkToolArgFrame mid n1 a1),
        .frame (mkToolStartFrame mid n2 id2 nm2),
        .frame (mkToolArgFrame mid n2 b1),
        .frame (mkToolArgFrame mid n1 a2),
        .frame (mkToolArgFrame mid n2 b2)]] =
      [.messageStart mid model,
       .contentBlockStart (n1 + 1) (.toolUse id1 nm1 (.obj [])),
       .contentBlockDelta (n1 + 1) (.inputJsonDelta a1),
       .contentBlockStart (n2 + 1) (.toolUse id2 nm2 (.obj [])),
       .contentBlockDelta (n2 + 1) (.inputJsonDelta b1),
       .contentBlockDelta (n1 + 1) (.inputJsonDelta a2),
       .contentBlockDelta (n2 + 1) (.inputJsonDelta b2)] := by
    simp [openaiDecodeStream, openaiDecodeChunk, openaiProcessLine, openaiChoiceEvents,
      openaiToolCallEvents, mkToolStartFrame, mkToolArgFrame, h1, h2, h3, h4]
  refine ⟨hshape, by omega, ?_⟩
  rw [hshape]
  rfl

/-- Witness for C5 (amended) at concrete inputs: vendor indices 0 and 1,
argument fragments "x", "y", "z", "w". -/
theorem C5_witness :
    openaiDecodeStream "gpt-4o"
        [[.frame (mkToolStartFrame "chatcmpl-5w" 0 "call_a" "fn_a"),
          .frame (mkToolArgFrame "chatcmpl-5w" 0 "x"),
          .frame (mkToolStartFrame "chatcmpl-5w" 1 "call_b" "fn_b"),
          .frame (mkToolArgFrame "chatcmpl-5w" 1 "y"),
          .frame (mkToolArgFrame "chatcmpl-5w" 0 "z"),
          .frame (mkToolArgFrame "chatcmpl-5w" 1 "w")]] =
      [.messageStart "chatcmpl-5w" "gpt-4o",
       .contentBlockStart 1 (.toolUse "call_a" "fn_a" (.obj [])),
       .contentBlockDelta 1 (.inputJsonDelta "x"),
       .contentBlockStart 2 (.toolUse "call_b" "fn_b" (.obj [])),
       .contentBlockDelta 2 (.inputJsonDelta "y"),
       .contentBlockDelta 1 (.inputJsonDelta "z"),
       .contentBlockDelta 2 (.inputJsonDelta "w")] :=
  (C5_amended_two_tool_calls "gpt-4o" "chatcmpl-5w" "call_a" "call_b" "fn_a" "fn_b"
    "x" "y" "z" "w" 0 1 (by decide) rfl rfl rfl rfl).1

/-! ## JSON round trip, part 1: characters, digits, integers -/

theorem char_ofNat_toNat (c : Char) : Char.ofNat c.toNat = c := by
  rcases c with ⟨v, hv⟩
  have hvalid : (Char.toNat ⟨v, hv⟩).isValidChar := by
    simpa [Char.toNat] using hv
  rw [Char.ofNat, dif_pos hvalid]
  simp [Char.ofNatAux, Char.toNat]
  constructor

theorem digitChar_isDigit (n : Nat) (h : n < 10) : (digitChar n).isDigit = true := by
  interval_cases n <;> decide

theorem digitVal_digitChar (n : Nat) (h : n < 10) : digitVal (digitChar n) = n := by
  interval_cases n <;> decide

theorem hexVal_hexChar (k : Nat) (h : k < 16) : hexVal (hexChar k) = some k := by
  interval_cases k <;> decide

theorem natChars_head (n : Nat) : ∃ c cs, natChars n = c :: cs ∧ c.isDigit = true := by
  induction n using Nat.strong_induction_on with
  | _ n ih =>
    by_cases h : n < 10
    · exact ⟨digitChar n, [], by simp [natChars, h], digitChar_isDigit n h⟩
    · obtain ⟨c, cs, hc, hd⟩ := ih (n / 10) (Nat.div_lt_self (by omega) (by omega))
      refine ⟨c, cs ++ [digitChar (n % 10)], ?_, hd⟩
      rw [natChars]
      simp [h, hc]

theorem parseNatAux_stop (acc : Nat) (rest : List Char) (h : headNotDigit rest) :
    parseNatAux acc rest = (acc, rest) := by
  cases rest with
  | nil => rfl
  | cons c r => simp [parseNatAux, h c rfl]

theorem parseNatAux_natChars (n : Nat) : ∀ (acc : Nat) (rest : List Char),
    parseNatAux acc (natChars n ++ rest) =
      parseNatAux (acc * 10 ^ (natChars n).length + n) rest := by
  induction n using Nat.strong_induction_on with
  | _ n ih =>
    intro acc rest
    by_cases h : n < 10
    · have he : natChars n = [digitChar n] := by simp [natChars, h]
      rw [he]
      simp [parseNatAux, digitChar_isDigit n h, digitVal_digitChar n h]
    · have he : natChars n = natChars (n / 10) ++ [digitChar (n % 10)] := by
        rw [natChars]; simp [h]
      have h10 : n % 10 < 10 := Nat.mod_lt _ (by omega)
      rw [he, List.append_assoc, ih (n / 10) (Nat.div_lt_self (by omega) (by omega))]
      simp only [List.cons_append, List.nil_append]
      rw [List.length_append]
      simp only [List.length_singleton]
      simp [parseNatAux, digitChar_isDigit _ h10, digitVal_digitChar _ h10]
      congr 1
      rw [pow_succ, ← Nat.mul_assoc]
      generalize acc * 10 ^ (natChars (n / 10)).length = A
      omega

theorem parseNatStart_natChars (n : Nat) (rest : List Char) (h : headNotDigit rest) :
    parseNatStart (natChars n ++ rest) = some (n, rest) := by
  obtain ⟨c, cs, hc, hd⟩ := natChars_head n
  have h1 : parseNatAux 0 (natChars n ++ rest) = (n, rest) := by
    rw [parseNatAux_natChars]
    simpa using parseNatAux_stop n rest h
  rw [hc, List.cons_append] at h1 ⊢
  simp only [parseNatAux, hd, if_true, Nat.zero_mul, Nat.zero_add] at h1
  simp [parseNatStart, hd, h1]

theorem parseIntChars_renderInt (n : Int) (rest : List Char) (h : headNotDigit rest) :
    parseIntChars (renderInt n ++ rest) = some (n, rest) := by
  by_cases hn : n < 0
  · have he : renderInt n = '-' :: natChars n.natAbs := by simp [renderInt, hn]
    rw [he, List.cons_append]
    have hp := parseNatStart_natChars n.natAbs rest h
    simp only [parseIntChars, hp, Option.map_some']
    have hval : -((n.natAbs : Int)) = n := by omega
    rw [hval]
  · have he : renderInt n = natChars n.toNat := by simp [renderInt, hn]
    obtain ⟨c, cs, hc, hd⟩ := natChars_head n.toNat
    have hne : c ≠ '-' := by
      intro hcc
      rw [hcc] at hd
      exact absurd hd (by decide)
    rw [he, hc, List.cons_append]
    rw [parseIntChars.eq_def]
    split
    · rename_i r heq
      exact absurd (List.head_eq_of_cons_eq heq) hne
    · rw [← List.cons_append, ← hc, parseNatStart_natChars n.toNat rest h]
      simp [Int.toNat_of_nonneg (by omega : (0 : Int) ≤ n)]

/-! ## JSON round trip, part 2: string literals -/

theorem parseStringBody_render : ∀ (cs rest : List Char),
    parseStringBody ((cs.map escapeChar).flatten ++ '"' :: rest) = some (cs, rest) := by
  intro cs
  induction cs with
  | nil =>
      intro rest
      rw [List.map_nil, List.flatten_nil, List.nil_append, parseStringBody.eq_def]
      simp
  | cons c cs ih =>
      intro rest
      rw [List.map_cons, List.flatten_cons, List.append_assoc]
      by_cases q1 : c = '"'
      · subst q1
        rw [show escapeChar '"' = ['\\', '"'] from rfl, List.cons_append, List.cons_append,
          List.nil_append, parseStringBody.eq_def]
        simp [ih]
      by_cases q2 : c = '\\'
      · subst q2
        rw [show escapeChar '\\' = ['\\', '\\'] from rfl, List.cons_append, List.cons_append,
          List.nil_append, parseStringBody.eq_def]
        simp [ih]
      by_cases q3 : c.toNat = 8
      · have hesc : escapeChar c = ['\\', 'b'] := by simp [escapeChar, q1, q2, q3]
        have hchar : Char.ofNat 8 = c := q3 ▸ char_ofNat_toNat c
        rw [hesc, List.cons_append, List.cons_append, List.nil_append, parseStringBody.eq_def]
        simp [ih, hchar]
        exact hchar
      by_cases q4 : c.toNat = 9
      · have hesc : escapeChar c = ['\\', 't'] := by simp [escapeChar, q1, q2, q3, q4]
        have hchar : Char.ofNat 9 = c := q4 ▸ char_ofNat_toNat c
        rw [hesc, List.cons_append, List.cons_append, List.nil_append, parseStringBody.eq_def]
        simp [ih, hchar]
        exact hchar
      by_cases q5 : c.toNat = 10
      · have hesc : escapeChar c = ['\\', 'n'] := by simp [escapeChar, q1, q2, q3, q4, q5]
        have hchar : Char.ofNat 10 = c := q5 ▸ char_ofNat_toNat c
        rw [hesc, List.cons_append, List.cons_append, List.nil_append, parseStringBody.eq_def]
        simp [ih, hchar]
        exact hchar
      by_cases q6 : c.toNat = 12
      · have hesc : escapeChar c = ['\\', 'f'] := by simp [escapeChar, q1, q2, q3, q4, q5, q6]
        have hchar : Char.ofNat 12 = c := q6 ▸ char_ofNat_toNat c
        rw [hesc, List.cons_append, List.cons_append, List.nil_append, parseStringBody.eq_def]
        simp [ih, hchar]
        exact hchar
      by_cases q7 : c.toNat = 13
      · have hesc : escapeChar c = ['\\', 'r'] := by simp [escapeChar, q1, q2, q3, q4, q5, q6, q7]
        have hchar : Char.ofNat 13 = c := q7 ▸ char_ofNat_toNat c
        rw [hesc, List.cons_append, List.cons_append, List.nil_append, parseStringBody.eq_def]
        simp [ih, hchar]
        exact hchar
      by_cases q8 : c.toNat < 32
      · have hesc : escapeChar c =
            ['\\', 'u', '0', '0', hexChar (c.toNat / 16), hexChar (c.toNat % 16)] := by
          simp [escapeChar, q1, q2, q3, q4, q5, q6, q7, q8]
        have ha : hexVal (hexChar (c.toNat / 16)) = some (c.toNat / 16) :=
          hexVal_hexChar _ (by omega)
        have hb : hexVal (hexChar (c.toNat % 16)) = some (c.toNat % 16) :=
          hexVal_hexChar _ (by omega)
        have hcode : ((0 * 16 + 0) * 16 + c.toNat / 16) * 16 + c.toNat % 16 = c.toNat := by
          omega
        have hvalid : (c.toNat).isValidChar := Or.inl (by omega)
        have hchar : Char.ofNat c.toNat = c := char_ofNat_toNat c
        have h0 : hexVal '0' = some 0 := by decide
        rw [hesc, List.cons_append, List.cons_append, List.cons_append, List.cons_append,
          List.cons_append, List.cons_append, List.nil_append, parseStringBody.eq_def]
        simp [h0, ha, hb, ih]
        have hsplit : c.toNat / 16 * 16 + c.toNat % 16 = c.toNat := by omega
        rw [hsplit]
        exact ⟨hvalid, hchar⟩
      · -- no escaping: the character is emitted verbatim
        have hesc : escapeChar c = [c] := by simp [escapeChar, q1, q2, q3, q4, q5, q6, q7, q8]
        rw [hesc, List.cons_append, List.nil_append, parseStringBody.eq_def]
        simp [q1, q2, q8, ih]

/-! ## JSON round trip, part 3: head characters and fuel bounds -/

theorem skipWs_not_ws (c : Char) (r : List Char) (h : isWsChar c = false) :
    skipWs (c :: r) = c :: r := by
  simp [skipWs, h]

theorem isDigit_not_special (c : Char) (h : c.isDigit = true) :
    c ≠ 'n' ∧ c ≠ 't' ∧ c ≠ 'f' ∧ c ≠ '"' ∧ c ≠ '[' ∧ c ≠ lcurly ∧ c ≠ ']' ∧ c ≠ rcurly ∧
      c ≠ ',' ∧ c ≠ ':' ∧ c ≠ '-' ∧ isWsChar c = false := by
  have hws : isWsChar c = false := by
    by_cases h1 : c = ' '
    · rw [h1] at h; exact absurd h (by decide)
    by_cases h2 : c = '\t'
    · rw [h2] at h; exact absurd h (by decide)
    by_cases h3 : c = '\n'
    · rw [h3] at h; exact absurd h (by decide)
    by_cases h4 : c = '\r'
    · rw [h4] at h; exact absurd h (by decide)
    simp [isWsChar, h1, h2, h3, h4]
  refine ⟨?_, ?_, ?_, ?_, ?_, ?_, ?_, ?_, ?_, ?_, ?_, hws⟩ <;>
    (intro hcc; rw [hcc] at h; exact absurd h (by decide))

theorem isValueStart_facts (c : Char) (h : isValueStart c = true) :
    isWsChar c = false ∧ c ≠ ']' ∧ c ≠ rcurly ∧ c ≠ ',' ∧ c ≠ ':' := by
  simp only [isValueStart, Bool.or_eq_true, decide_eq_true_eq] at h
  rcases h with ((((((rfl | rfl) | rfl) | rfl) | rfl) | rfl) | rfl) | hd
  · exact ⟨by decide, by decide, by decide, by decide, by decide⟩
  · exact ⟨by decide, by decide, by decide, by decide, by decide⟩
  · exact ⟨by decide, by decide, by decide, by decide, by decide⟩
  · exact ⟨by decide, by decide, by decide, by decide, by decide⟩
  · exact ⟨by decide, by decide, by decide, by decide, by decide⟩
  · exact ⟨by decide, by decide, by decide, by decide, by decide⟩
  · exact ⟨by decide, by decide, by decide, by decide, by decide⟩
  · obtain ⟨_, _, _, _, _, _, h7, h8, h9, h10, _, h12⟩ := isDigit_not_special c hd
    exact ⟨h12, h7, h8, h9, h10⟩

theorem renderJson_head (v : Json) :
    ∃ c cs, renderJson v = c :: cs ∧ isValueStart c = true := by
  cases v with
  | null => exact ⟨'n', _, rfl, by decide⟩
  | bool b =>
      cases b with
      | false => exact ⟨'f', _, rfl, by decide⟩
      | true => exact ⟨'t', _, rfl, by decide⟩
  | num n =>
      rw [renderJson]
      by_cases hn : n < 0
      · rw [renderInt, if_pos hn]
        exact ⟨'-', _, rfl, by decide⟩
      · rw [renderInt, if_neg hn]
        obtain ⟨c, cs, hc, hd⟩ := natChars_head n.toNat
        exact ⟨c, cs, hc, by simp [isValueStart, hd]⟩
  | str s => exact ⟨'"', _, rfl, by decide⟩
  | arr xs => exact ⟨'[', _, rfl, by decide⟩
  | obj kvs => exact ⟨lcurly, _, rfl, by decide⟩

theorem renderArrItems_cons (x : Json) (t : List Json) :
    ∃ tl, renderArrItems (x :: t) = renderJson x ++ tl := by
  cases t with
  | nil => exact ⟨[], by simp [renderArrItems]⟩
  | cons y t2 => exact ⟨',' :: renderArrItems (y :: t2), rfl⟩

theorem jsonFuel_pos (v : Json) : 1 ≤ jsonFuel v := by
  cases v <;> simp [jsonFuel]

theorem arrFuel_pos (xs : List Json) : 1 ≤ arrFuel xs := by
  cases xs with
  | nil => simp [arrFuel]
  | cons v t =>
      have h : arrFuel (v :: t) = 1 + jsonFuel v + arrFuel t := rfl
      omega

theorem objFuel_pos (kvs : List (String × Json)) : 1 ≤ objFuel kvs := by
  cases kvs with
  | nil => simp [objFuel]
  | cons kv t =>
      have h : objFuel (kv :: t) = 1 + jsonFuel kv.2 + objFuel t := rfl
      omega

theorem renderInt_length_pos (n : Int) : 1 ≤ (renderInt n).length := by
  rw [renderInt]
  by_cases hn : n < 0
  · simp [hn]
  · rw [if_neg hn]
    obtain ⟨c, cs, hc, _⟩ := natChars_head n.toNat
    simp [hc]

mutual

theorem jsonFuel_le_render (v : Json) : jsonFuel v ≤ 2 * (renderJson v).length := by
  cases v with
  | null => simp [jsonFuel, renderJson]
  | bool b => cases b <;> simp [jsonFuel, renderJson]
  | num n =>
      have h := renderInt_length_pos n
      have he : jsonFuel (Json.num n) = 1 := rfl
      have hr : renderJson (Json.num n) = renderInt n := rfl
      rw [he, hr]
      omega
  | str s =>
      have he : jsonFuel (Json.str s) = 1 := rfl
      have hr : (renderJson (Json.str s)).length =
          ((s.data.map escapeChar).flatten).length + 2 := by
        simp [renderJson, renderStringChars]
      rw [he]
      omega
  | arr xs =>
      have h := arrFuel_le_render xs
      have he : jsonFuel (Json.arr xs) = 1 + arrFuel xs := rfl
      have hr : (renderJson (Json.arr xs)).length = (renderArrItems xs).length + 2 := by
        simp [renderJson]
      rw [he, hr]
      omega
  | obj kvs =>
      have h := objFuel_le_render kvs
      have he : jsonFuel (Json.obj kvs) = 1 + objFuel kvs := rfl
      have hr : (renderJson (Json.obj kvs)).length = (renderObjItems kvs).length + 2 := by
        simp [renderJson]
      rw [he, hr]
      omega

theorem arrFuel_le_render (xs : List Json) :
    arrFuel xs ≤ 2 * (renderArrItems xs).length + 2 := by
  match xs with
  | [] => simp [arrFuel, renderArrItems]
  | [x] =>
      have h := jsonFuel_le_render x
      have he : arrFuel [x] = 1 + jsonFuel x + 1 := rfl
      have hr : renderArrItems [x] = renderJson x := rfl
      rw [he, hr]
      omega
  | x :: y :: t =>
      have h1 := jsonFuel_le_render x
      have h2 := arrFuel_le_render (y :: t)
      have he : arrFuel (x :: y :: t) = 1 + jsonFuel x + arrFuel (y :: t) := rfl
      have hr : (renderArrItems (x :: y :: t)).length =
          (renderJson x).length + 1 + (renderArrItems (y :: t)).length := by
        have : renderArrItems (x :: y :: t) =
            renderJson x ++ ',' :: renderArrItems (y :: t) := rfl
        rw [this]
        simp
        omega
      rw [he, hr]
      omega

theorem objFuel_le_render (kvs : List (String × Json)) :
    objFuel kvs ≤ 2 * (renderObjItems kvs).length + 2 := by
  match kvs with
  | [] => simp [objFuel, renderObjItems]
  | [(k, v)] =>
      have h := jsonFuel_le_render v
      have he : objFuel [(k, v)] = 1 + jsonFuel v + 1 := rfl
      have hr : (renderObjItems [(k, v)]).length =
          (renderStringChars k.data).length + 1 + (renderJson v).length := by
        have : renderObjItems [(k, v)] = renderStringChars k.data ++ ':' :: renderJson v := rfl
        rw [this]
        simp
        omega
      rw [he, hr]
      omega
  | (k, v) :: m :: t =>
      have h1 := jsonFuel_le_render v
      have h2 := objFuel_le_render (m :: t)
      have he : objFuel ((k, v) :: m :: t) = 1 + jsonFuel v + objFuel (m :: t) := rfl
      have hr : (renderObjItems ((k, v) :: m :: t)).length =
          (renderStringChars k.data).length + 1 + (renderJson v).length + 1 +
            (renderObjItems (m :: t)).length := by
        have : renderObjItems ((k, v) :: m :: t) =
            renderStringChars k.data ++ ':' :: renderJson v ++ ',' :: renderObjItems (m :: t) :=
          rfl
        rw [this]
        simp
        omega
      rw [he, hr]
      omega

end

/-! ## JSON round trip, part 4: the fuel-indexed parser inverts the renderer -/

theorem parse_render_fuel (f : Nat) :
    (∀ (v : Json) (rest : List Char), jsonFuel v ≤ f → headNotDigit rest →
        parseValueF f (renderJson v ++ rest) = some (v, rest)) ∧
    (∀ (xs : List Json) (rest : List Char), xs ≠ [] → arrFuel xs ≤ f →
        parseArrItemsF f (renderArrItems xs ++ ']' :: rest) = some (xs, rest)) ∧
    (∀ (kvs : List (String × Json)) (rest : List Char), kvs ≠ [] → objFuel kvs ≤ f →
        parseObjItemsF f (renderObjItems kvs ++ rcurly :: rest) = some (kvs, rest)) := by
  induction f with
  | zero =>
      refine ⟨?_, ?_, ?_⟩
      · intro v _ hf _
        exact absurd hf (by have := jsonFuel_pos v; omega)
      · intro xs _ _ hf
        exact absurd hf (by have := arrFuel_pos xs; omega)
      · intro kvs _ _ hf
        exact absurd hf (by have := objFuel_pos kvs; omega)
  | succ f ih =>
      obtain ⟨ihP, ihQ, ihR⟩ := ih
      refine ⟨?_, ?_, ?_⟩
      · -- one value
        intro v rest hf hrest
        cases v with
        | null =>
            show parseValueF (f + 1) (['n', 'u', 'l', 'l'] ++ rest) = _
            simp [parseValueF, skipWs, isWsChar]
        | bool b =>
            cases b with
            | true =>
                show parseValueF (f + 1) (['t', 'r', 'u', 'e'] ++ rest) = _
                simp [parseValueF, skipWs, isWsChar]
            | false =>
                show parseValueF (f + 1) (['f', 'a', 'l', 's', 'e'] ++ rest) = _
                simp [parseValueF, skipWs, isWsChar]
        | num n =>
            show parseValueF (f + 1) (renderInt n ++ rest) = _
            by_cases hn : n < 0
            · have he : renderInt n = '-' :: natChars n.natAbs := by simp [renderInt, hn]
              have hp : parseIntChars ('-' :: (natChars n.natAbs ++ rest)) = some (n, rest) := by
                rw [← List.cons_append, ← he]
                exact parseIntChars_renderInt n rest hrest
              rw [he, List.cons_append, parseValueF, skipWs_not_ws _ _ (by decide)]
              simp [hp, lcurly, rcurly]
            · have he : renderInt n = natChars n.toNat := by simp [renderInt, hn]
              obtain ⟨c, cs, hc, hd⟩ := natChars_head n.toNat
              obtain ⟨hc1, hc2, hc3, hc4, hc5, hc6, _, _, _, _, _, hws⟩ :=
                isDigit_not_special c hd
              have hp : parseIntChars (c :: (cs ++ rest)) = some (n, rest) := by
                rw [← List.cons_append, ← hc, ← he]
                exact parseIntChars_renderInt n rest hrest
              rw [he, hc, List.cons_append, parseValueF, skipWs_not_ws _ _ hws]
              simp [hc1, hc2, hc3, hc4, hc5, hc6, hd, hp]
        | str s =>
            have hshape : renderJson (Json.str s) ++ rest =
                '"' :: ((s.data.map escapeChar).flatten ++ '"' :: rest) := by
              simp [renderJson, renderStringChars]
            have hps := parseStringBody_render s.data rest
            rw [hshape, parseValueF, skipWs_not_ws _ _ (by decide)]
            simp [hps]
        | arr xs =>
            cases xs with
            | nil =>
                show parseValueF (f + 1) (['[', ']'] ++ rest) = _
                simp [parseValueF, skipWs, isWsChar]
            | cons x t =>
                have hfa : arrFuel (x :: t) ≤ f := by
                  have he : jsonFuel (Json.arr (x :: t)) = 1 + arrFuel (x :: t) := rfl
                  omega
                obtain ⟨tl, htl⟩ := renderArrItems_cons x t
                obtain ⟨c, cs, hc, hstart⟩ := renderJson_head x
                obtain ⟨hws, hbr, _, _, _⟩ := isValueStart_facts c hstart
                have hitems : renderArrItems (x :: t) ++ ']' :: rest =
                    c :: (cs ++ (tl ++ ']' :: rest)) := by
                  rw [htl, hc]
                  simp
                have hq : parseArrItemsF f (c :: (cs ++ (tl ++ ']' :: rest))) =
                    some (x :: t, rest) := by
                  rw [← hitems]
                  exact ihQ (x :: t) rest (by simp) hfa
                have hshape : renderJson (Json.arr (x :: t)) ++ rest =
                    '[' :: (renderArrItems (x :: t) ++ ']' :: rest) := by
                  simp [renderJson]
                have hsk : skipWs (c :: (cs ++ (tl ++ ']' :: rest))) =
                    c :: (cs ++ (tl ++ ']' :: rest)) := skipWs_not_ws _ _ hws
                rw [hshape, parseValueF, skipWs_not_ws _ _ (by decide), hitems]
                simp [hsk, hbr, hq, lcurly]
        | obj kvs =>
            cases kvs with
            | nil =>
                show parseValueF (f + 1) ([lcurly, rcurly] ++ rest) = _
                simp [parseValueF, skipWs, isWsChar, lcurly, rcurly]
            | cons kv t =>
                obtain ⟨k, v⟩ := kv
                have hfo : objFuel ((k, v) :: t) ≤ f := by
                  have he : jsonFuel (Json.obj ((k, v) :: t)) = 1 + objFuel ((k, v) :: t) := rfl
                  omega
                have hhead : ∃ tl3, renderObjItems ((k, v) :: t) ++ rcurly :: rest =
                    '"' :: tl3 := by
                  cases t with
                  | nil =>
                      refine ⟨(k.data.map escapeChar).flatten ++ ['"'] ++
                        (':' :: renderJson v) ++ rcurly :: rest, ?_⟩
                      have he : renderObjItems [(k, v)] =
                          renderStringChars k.data ++ ':' :: renderJson v := rfl
                      rw [he, renderStringChars]
                      simp
                  | cons m t2 =>
                      refine ⟨(k.data.map escapeChar).flatten ++ ['"'] ++
                        (':' :: (renderJson v ++ ',' :: renderObjItems (m :: t2))) ++
                          rcurly :: rest, ?_⟩
                      have he : renderObjItems ((k, v) :: m :: t2) =
                          renderStringChars k.data ++
                            ':' :: (renderJson v ++ ',' :: renderObjItems (m :: t2)) := by
                        have h0 : renderObjItems ((k, v) :: m :: t2) =
                            renderStringChars k.data ++ ':' :: renderJson v ++
                              ',' :: renderObjItems (m :: t2) := rfl
                        rw [h0]
                        simp
                      rw [he, renderStringChars]
                      simp
                obtain ⟨tl3, htl3⟩ := hhead
                have hr : parseObjItemsF f ('"' :: tl3) = some ((k, v) :: t, rest) := by
                  rw [← htl3]
                  exact ihR ((k, v) :: t) rest (by simp) hfo
                have hshape : renderJson (Json.obj ((k, v) :: t)) ++ rest =
                    lcurly :: (renderObjItems ((k, v) :: t) ++ rcurly :: rest) := by
                  simp [renderJson]
                have hsk : skipWs ('"' :: tl3) = '"' :: tl3 := skipWs_not_ws _ _ (by decide)
                rw [hshape, parseValueF, skipWs_not_ws _ _ (by decide), htl3]
                simp [lcurly, rcurly, hsk, hr]
      · -- array elements
        intro xs rest hne hf
        cases xs with
        | nil => exact absurd rfl hne
        | cons x t =>
            cases t with
            | nil =>
                have hfx : jsonFuel x ≤ f := by
                  have he : arrFuel [x] = 1 + jsonFuel x + 1 := rfl
                  omega
                have hp : parseValueF f (renderJson x ++ ']' :: rest) = some (x, ']' :: rest) :=
                  ihP x (']' :: rest) hfx
                    (by intro c hc; simp at hc; subst hc; decide)
                have hra : renderArrItems [x] = renderJson x := rfl
                rw [parseArrItemsF, hra, hp]
                simp [skipWs, isWsChar]
            | cons y t2 =>
                have hfx : jsonFuel x ≤ f := by
                  have he : arrFuel (x :: y :: t2) = 1 + jsonFuel x + arrFuel (y :: t2) := rfl
                  have := arrFuel_pos (y :: t2)
                  omega
                have hfyt : arrFuel (y :: t2) ≤ f := by
                  have he : arrFuel (x :: y :: t2) = 1 + jsonFuel x + arrFuel (y :: t2) := rfl
                  have := jsonFuel_pos x
                  omega
                have hp : parseValueF f
                    (renderJson x ++ ',' :: (renderArrItems (y :: t2) ++ ']' :: rest)) =
                    some (x, ',' :: (renderArrItems (y :: t2) ++ ']' :: rest)) :=
                  ihP x _ hfx (by intro c hc; simp at hc; subst hc; decide)
                have hq := ihQ (y :: t2) rest (by simp) hfyt
                have hra : renderArrItems (x :: y :: t2) ++ ']' :: rest =
                    renderJson x ++ ',' :: (renderArrItems (y :: t2) ++ ']' :: rest) := by
                  have he : renderArrItems (x :: y :: t2) =
                      renderJson x ++ ',' :: renderArrItems (y :: t2) := rfl
                  rw [he]
                  simp
                rw [parseArrItemsF, hra, hp]
                simp [skipWs, isWsChar, hq]
      · -- object members
        intro kvs rest hne hf
        cases kvs with
        | nil => exact absurd rfl hne
        | cons kv t =>
            obtain ⟨k, v⟩ := kv
            cases t with
            | nil =>
                have hfv : jsonFuel v ≤ f := by
                  have he : objFuel [(k, v)] = 1 + jsonFuel v + 1 := rfl
                  omega
                have hp : parseValueF f (renderJson v ++ rcurly :: rest) =
                    some (v, rcurly :: rest) :=
                  ihP v _ hfv (by intro c hc; simp at hc; subst hc; decide)
                have hps := parseStringBody_render k.data
                  (':' :: (renderJson v ++ rcurly :: rest))
                have hro : renderObjItems [(k, v)] ++ rcurly :: rest =
                    '"' :: ((k.data.map escapeChar).flatten ++
                      '"' :: (':' :: (renderJson v ++ rcurly :: rest))) := by
                  have he : renderObjItems [(k, v)] =
                      renderStringChars k.data ++ ':' :: renderJson v := rfl
                  rw [he, renderStringChars]
                  simp
                rw [parseObjItemsF, hro, skipWs_not_ws _ _ (by decide)]
                have hc1 : skipWs (':' :: (renderJson v ++ rcurly :: rest)) =
                    ':' :: (renderJson v ++ rcurly :: rest) := skipWs_not_ws _ _ (by decide)
                have hc2 : skipWs (rcurly :: rest) = rcurly :: rest :=
                  skipWs_not_ws _ _ (by decide)
                have hc3 : rcurly ≠ ',' := by decide
                simp [hps, hc1, hp, hc2, hc3]
            | cons m t2 =>
                have hfv : jsonFuel v ≤ f := by
                  have he : objFuel ((k, v) :: m :: t2) =
                      1 + jsonFuel v + objFuel (m :: t2) := rfl
                  have := objFuel_pos (m :: t2)
                  omega
                have hfmt : objFuel (m :: t2) ≤ f := by
                  have he : objFuel ((k, v) :: m :: t2) =
                      1 + jsonFuel v + objFuel (m :: t2) := rfl
                  have := jsonFuel_pos v
                  omega
                have hp : parseValueF f
                    (renderJson v ++ ',' :: (renderObjItems (m :: t2) ++ rcurly :: rest)) =
                    some (v, ',' :: (renderObjItems (m :: t2) ++ rcurly :: rest)) :=
                  ihP v _ hfv (by intro c hc; simp at hc; subst hc; decide)
                have hq := ihR (m :: t2) rest (by simp) hfmt
                have hps := parseStringBody_render k.data
                  (':' :: (renderJson v ++ ',' :: (renderObjItems (m :: t2) ++ rcurly :: rest)))
                have hro : renderObjItems ((k, v) :: m :: t2) ++ rcurly :: rest =
                    '"' :: ((k.data.map escapeChar).flatten ++
                      '"' :: (':' :: (renderJson v ++
                        ',' :: (renderObjItems (m :: t2) ++ rcurly :: rest)))) := by
                  have he : renderObjItems ((k, v) :: m :: t2) =
                      renderStringChars k.data ++
                        ':' :: (renderJson v ++ ',' :: renderObjItems (m :: t2)) := by
                    have h0 : renderObjItems ((k, v) :: m :: t2) =
                        renderStringChars k.data ++ ':' :: renderJson v ++
                          ',' :: renderObjItems (m :: t2) := rfl
                    rw [h0]
                    simp
                  rw [he, renderStringChars]
                  simp
                rw [parseObjItemsF, hro, skipWs_not_ws _ _ (by decide)]
                have hc1 : skipWs (':' :: (renderJson v ++
                      ',' :: (renderObjItems (m :: t2) ++ rcurly :: rest))) =
                    ':' :: (renderJson v ++
                      ',' :: (renderObjItems (m :: t2) ++ rcurly :: rest)) :=
                  skipWs_not_ws _ _ (by decide)
                have hc2 : skipWs (',' :: (renderObjItems (m :: t2) ++ rcurly :: rest)) =
                    ',' :: (renderObjItems (m :: t2) ++ rcurly :: rest) :=
                  skipWs_not_ws _ _ (by decide)
                simp [hps, hc1, hp, hc2, hq]

/-- `jsonParse` inverts `jsonRender` on every JSON value of the embedding:
the embedded `serde_json::from_str . serde_json::to_string` round trip is the
identity. -/
theorem jsonParse_jsonRender (v : Json) : jsonParse (jsonRender v) = some v := by
  have hdata : (jsonRender v).data = renderJson v := rfl
  have hlen : (jsonRender v).length = (renderJson v).length := rfl
  have hfuel : jsonFuel v ≤ 2 * (jsonRender v).length + 1 := by
    have h := jsonFuel_le_render v
    omega
  have hp := (parse_render_fuel (2 * (jsonRender v).length + 1)).1 v [] hfuel
    (by intro c hc; simp at hc)
  rw [List.append_nil] at hp
  unfold jsonParse
  rw [hdata, hp]
  simp [skipWs]

/-! ## Claim C6 — ToolUse argument round trip -/

/-- C6: for every ToolUse block whose input is a JSON object, encoding the
block through either vendor transcoder and then decoding the vendor's
representation back reproduces a JSON value equal to the original (hence in
particular equal up to key order).  OpenAI string-encodes the arguments with
`serde_json::to_string` on encode and parses them with `serde_json::from_str`
on decode; Anthropic carries the JSON value inline in both directions.  The
last two conjuncts state the same fact through the full `convert_response`
path of each vendor.  (JSON numbers are embedded as integers; floating-point
arguments are outside the embedding.) -/
theorem C6_tooluse_roundtrip :
    ∀ (id name rid mdl : String) (kvs : List (String × Json)),
      openaiDecodeToolCall (openaiEncodeToolUse id name (.obj kvs)) =
          ContentBlock.toolUse id name (.obj kvs) ∧
        anthropicBlockToUnified (anthropicConvertBlock (.toolUse id name (.obj kvs))) =
          ContentBlock.toolUse id name (.obj kvs) ∧
        (openaiConvertResponse
            { id := rid,
              choices := [{ message := { role := "assistant", content := none,
                                         tool_calls :=
                                           some [openaiEncodeToolUse id name (.obj kvs)] },
                            finish_reason := none, index := 0 }],
              usage := none, model := mdl }).content =
          [ContentBlock.toolUse id name (.obj kvs)] ∧
        (anthropicConvertResponse
            { id := rid,
              content := [anthropicConvertBlock (.toolUse id name (.obj kvs))],
              stop_reason := none,
              usage := { input_tokens := 0, output_tokens := 0 },
              model := mdl }).content =
          [ContentBlock.toolUse id name (.obj kvs)] := by
  intro id name rid mdl kvs
  refine ⟨?_, rfl, ?_, rfl⟩
  · simp [openaiDecodeToolCall, openaiEncodeToolUse, jsonParse_jsonRender]
  · simp [openaiConvertResponse, openaiDecodeToolCall, openaiEncodeToolUse,
      jsonParse_jsonRender]

end OpenSesh
